import Mathlib

/-!
Shallow embedding of the Google Drive connector sync engine
(`syncFiles`, `incrementalSync`, `garbageCollector`, `renewWebhooks`,
`deleteOneFile`, `deleteFile`, and their helpers) together with proofs of
the specification's claims about it.

Timestamps are `Nat` (milliseconds). JavaScript string falsiness
(`!file.id` is true for both `undefined` and `""`) is modelled by
`falsyS` on `Option String`. Database tables are lists of rows; remote
Google Drive responses are data supplied in a `Remote` environment.
Thrown exceptions are `Except DriveError`.
-/

set_option autoImplicit false

namespace GDrive

/-- Errors thrown by the sync engine or surfaced by the remote client:
`gaxios status msg` models a `GaxiosError` carrying an HTTP status. -/
inductive DriveError where
  | gaxios (status : Nat) (msg : String)
  | invalidFile (msg : String)
  | notFound (msg : String)
  | externalOauthToken
  | httpError (msg : String)
deriving Repr, DecidableEq

/-- JavaScript falsiness of an optional string field: `undefined`/missing or `""`. -/
def falsyS (o : Option String) : Bool :=
  o.getD "" == ""

/-- Canonical remote object representation (`GoogleDriveObjectType`), as
produced by `driveObjectToDustType`. -/
structure GoogleDriveObjectType where
  id : String
  name : String
  mimeType : String
  parent : Option String
  trashed : Bool
  createdTime : String
deriving Repr, DecidableEq

/-- A raw remote file as returned by the Drive API (`drive_v3.Schema$File`):
every field may be absent. -/
structure RawFile where
  id : Option String
  name : Option String
  mimeType : Option String
  parent : Option String
  trashed : Bool
  createdTime : Option String
deriving Repr, DecidableEq

/-- A change-feed entry (`drive_v3.Schema$Change`). -/
structure Change where
  changeType : String
  file : Option RawFile
deriving Repr, DecidableEq

/-- One page of a `files.list` response. -/
structure ListPage where
  files : List RawFile
  nextPageToken : Option String
deriving Repr, DecidableEq

/-- One page of a `changes.list` response. -/
structure ChangePage where
  changes : List Change
  nextPageToken : Option String
  newStartPageToken : Option String
deriving Repr, DecidableEq

/-- A `GoogleDriveFiles` mirror row: one row per remote file/folder observed
for a connector, keyed by `(connectorId, driveFileId)`. -/
structure GoogleDriveFiles where
  connectorId : Nat
  dustFileId : String
  driveFileId : String
  name : String
  mimeType : String
  parentId : Option String
  lastSeenTs : Option Nat
deriving Repr, DecidableEq

/-- A `GoogleDriveSyncToken` row: the persisted change-feed cursor per
`(connectorId, driveId)`. -/
structure GoogleDriveSyncToken where
  connectorId : Nat
  driveId : String
  syncToken : String
deriving Repr, DecidableEq

/-- A `GoogleDriveWebhook` row: a push-notification subscription. -/
structure GoogleDriveWebhook where
  id : Nat
  connectorId : Nat
  driveId : String
  webhookId : String
  expiresAt : Nat
  renewAt : Nat
  renewedByWebhookId : Option String
deriving Repr, DecidableEq

/-- Downstream indexing service state: document ids upserted via
`upsert(documentId, ...)`, and spreadsheet-derived entries keyed by the
spreadsheet's drive file id. -/
structure DataSource where
  docs : List String
  sheets : List (String × String)
deriving Repr, DecidableEq

/-- Persisted connector-side state: connector rows, failed-sync markers,
the per-connector `GoogleDriveConfig.pdfEnabled` flag, and the
`GoogleDriveFiles` / `GoogleDriveFolders` / `GoogleDriveSyncToken` /
`GoogleDriveWebhook` tables, plus the downstream index. -/
structure St where
  connectors : List Nat
  failedConnectors : List Nat
  pdfEnabled : Bool
  files : List GoogleDriveFiles
  folders : List (Nat × String)
  syncTokens : List GoogleDriveSyncToken
  webhooks : List GoogleDriveWebhook
  ds : DataSource
deriving Repr, DecidableEq

/-- Remote environment: the Drive objects reachable by id, plus the data the
remote serves for each list / change-feed / start-token /
webhook-registration request. -/
structure Remote where
  objects : List GoogleDriveObjectType
  listPages : List (String × Option String × ListPage)
  changePages : List (String × String × Except DriveError ChangePage)
  startPageTokens : List (String × String)
  ensureResults : List (String × Except DriveError (Option String))

def folderMime : String := "application/vnd.google-apps.folder"

def spreadsheetMime : String := "application/vnd.google-apps.spreadsheet"

/-- Modelled from the spec: the configured set of syncable MIME types
(`getMimeTypesToSync` lives in `temporal/mime_types`, not under `src/`);
the set contains the Google-native types (folders included, since full sync
discovers subfolders through it) and adds `application/pdf` when
`pdfEnabled` is set. -/
def getMimeTypesToSync (pdfEnabled : Bool) : List String :=
  ["application/vnd.google-apps.document",
   "application/vnd.google-apps.presentation",
   folderMime,
   spreadsheetMime,
   "text/plain"] ++ (if pdfEnabled then ["application/pdf"] else [])

/-- Modelled from the spec: `isGoogleDriveSpreadSheetFile` (in
`temporal/mime_types`, not under `src/`) recognises a mirror row whose
MIME type is the Google spreadsheet type, routed to the dedicated
spreadsheet deletion path. -/
def isGoogleDriveSpreadSheetFile (f : GoogleDriveFiles) : Bool :=
  f.mimeType == spreadsheetMime

/-- Modelled from the spec: `getDocumentId` (in `temporal/utils`, not under
`src/`) derives the stable downstream document id as a deterministic
function of the remote object id (§3, `canonicalDocumentId`). -/
def getDocumentId (driveFileId : String) : String :=
  "gdrive-" ++ driveFileId

/-- Modelled from the spec: `driveObjectToDustType` (in `temporal/utils`,
not under `src/`) translates a raw remote object into the canonical
representation of §6, carrying id, name, mimeType, parent, trashed and
createdTime through. -/
def driveObjectToDustType (f : RawFile) : GoogleDriveObjectType :=
  { id := f.id.getD ""
    name := f.name.getD ""
    mimeType := f.mimeType.getD ""
    parent := f.parent
    trashed := f.trashed
    createdTime := f.createdTime.getD "" }

/-- `getGoogleDriveObject`: fetch one object from the remote source;
`none` models a 404. -/
def getGoogleDriveObject (r : Remote) (id : String) : Option GoogleDriveObjectType :=
  r.objects.find? (fun o => o.id == id)

/-- Ancestor chain of a parent pointer, resolved transitively against the
remote source; the fuel bounds the walk by the number of remote objects. -/
def ancestorChain (r : Remote) : Nat → Option String → List GoogleDriveObjectType
  | 0, _ => []
  | _, none => []
  | n + 1, some pid =>
    match getGoogleDriveObject r pid with
    | none => []
    | some p => p :: ancestorChain r n p.parent

/-- Modelled from the spec: `getFileParentsMemoized` (in `lib/hierarchy`,
not under `src/`) resolves the file's ancestor chain via `parentId`
transitively against the remote source (§3); the chain starts at the
object itself. -/
def getFileParentsMemoized (r : Remote) (f : GoogleDriveObjectType) :
    List GoogleDriveObjectType :=
  f :: ancestorChain r (r.objects.length + 1) f.parent

/-- `objectIsInFolders`: scope membership test — some element of the
ancestor chain is one of the selected folder ids. -/
def objectIsInFolders (r : Remote) (driveFile : GoogleDriveObjectType)
    (foldersIds : List String) : Bool :=
  (getFileParentsMemoized r driveFile).any (fun p => foldersIds.contains p.id)

/-- Key of a mirror row: the unique `(connectorId, driveFileId)` identity. -/
def rowKey (f : GoogleDriveFiles) : Nat × String :=
  (f.connectorId, f.driveFileId)

/-- `GoogleDriveFiles.findOne({connectorId, driveFileId})`. -/
def findFile (files : List GoogleDriveFiles) (cid : Nat) (fid : String) :
    Option GoogleDriveFiles :=
  files.find? (fun f => f.connectorId == cid && f.driveFileId == fid)

/-- `GoogleDriveFiles.upsert`: replace the row with the same key, or append. -/
def upsertFile (files : List GoogleDriveFiles) (row : GoogleDriveFiles) :
    List GoogleDriveFiles :=
  if files.any (fun f => rowKey f == rowKey row) then
    files.map (fun f => if rowKey f == rowKey row then row else f)
  else
    files ++ [row]

/-- `GoogleDriveSyncToken.upsert` keyed by `(connectorId, driveId)`. -/
def upsertSyncToken (toks : List GoogleDriveSyncToken) (row : GoogleDriveSyncToken) :
    List GoogleDriveSyncToken :=
  if toks.any (fun t => t.connectorId == row.connectorId && t.driveId == row.driveId) then
    toks.map (fun t =>
      if t.connectorId == row.connectorId && t.driveId == row.driveId then row else t)
  else
    toks ++ [row]

/-- Modelled from the spec: `deleteFromDataSource` (in `lib/data_sources`,
not under `src/`) removes a document id from the downstream index
(§6, `delete(documentId)`). -/
def deleteFromDataSource (ds : DataSource) (documentId : String) : DataSource :=
  { ds with docs := ds.docs.filter (fun d => d ≠ documentId) }

/-- Modelled from the spec: `deleteSpreadsheet` (in `temporal/spreadsheets`,
not under `src/`) removes the downstream content derived from a
spreadsheet, keyed by the spreadsheet's drive file id. -/
def deleteSpreadsheet (ds : DataSource) (f : GoogleDriveFiles) : DataSource :=
  { ds with sheets := ds.sheets.filter (fun p => p.1 ≠ f.driveFileId) }

/-- Modelled from the spec: `syncFailed` (in `lib/sync_status`, not under
`src/`) marks the connector's sync as failed. -/
def syncFailed (st : St) (cid : Nat) : St :=
  { st with failedConnectors := cid :: st.failedConnectors }

/-- Body of `deleteFile` once the connector lookup has succeeded:
spreadsheets go through the dedicated spreadsheet deletion path, other
non-folder files get a downstream index delete, and in every case the
mirror row is destroyed. -/
def deleteFileT (st : St) (row : GoogleDriveFiles) : St :=
  let ds1 :=
    if isGoogleDriveSpreadSheetFile row then deleteSpreadsheet st.ds row
    else if row.mimeType ≠ folderMime then deleteFromDataSource st.ds row.dustFileId
    else st.ds
  { st with ds := ds1
            files := st.files.filter (fun g => rowKey g ≠ rowKey row) }

/-- `deleteFile(googleDriveFile)`: fetches the connector (throwing if it is
missing) and then destroys the mirror row together with its downstream
content. -/
def deleteFile (st : St) (row : GoogleDriveFiles) : Except DriveError St :=
  if row.connectorId ∈ st.connectors then
    .ok (deleteFileT st row)
  else
    .error (.notFound "Connector not found")

/-- `deleteOneFile(connectorId, file)`: only cleans up files that were being
synced — a no-op when no mirror row exists. -/
def deleteOneFile (st : St) (cid : Nat) (file : GoogleDriveObjectType) :
    Except DriveError St :=
  match findFile st.files cid file.id with
  | none => .ok st
  | some row => deleteFile st row

/-- Modelled from the spec: `syncOneFile` (in `temporal/file`, not under
`src/`) upserts the MirroredObject with `lastSeenTs = now` and, for
non-folder files, pushes the content to the downstream index under the
canonical document id (§4.1, §4.2). -/
def syncOneFile (st : St) (cid : Nat) (file : GoogleDriveObjectType) (now : Nat) : St :=
  let row : GoogleDriveFiles :=
    { connectorId := cid
      dustFileId := getDocumentId file.id
      driveFileId := file.id
      name := file.name
      mimeType := file.mimeType
      parentId := file.parent
      lastSeenTs := some now }
  let ds1 :=
    if file.mimeType == folderMime then st.ds
    else if st.ds.docs.contains (getDocumentId file.id) then st.ds
    else { st.ds with docs := st.ds.docs ++ [getDocumentId file.id] }
  { st with files := upsertFile st.files row, ds := ds1 }

/-- `getFoldersToSync(connectorId)`: ids of the folders selected for sync. -/
def getFoldersToSync (st : St) (cid : Nat) : List String :=
  (st.folders.filter (fun p => p.1 == cid)).map (fun p => p.2)

/-- Remote Google Drive API calls issued by the engine. -/
inductive RemoteCall where
  | getObject (id : String)
  | listFiles (folderId : String) (pageToken : Option String)
  | changesList (driveId : String) (pageToken : String)
  | getStartPageToken (driveId : String)
deriving Repr, DecidableEq

/-- Response served by the remote for a `files.list` request on a folder. -/
def lookupListPage (r : Remote) (folderId : String) (tok : Option String) :
    Option ListPage :=
  (r.listPages.find? (fun e => e.1 == folderId && e.2.1 == tok)).map (fun e => e.2.2)

/-- Response served by the remote for a `changes.list` request. -/
def lookupChangePage (r : Remote) (driveId : String) (tok : String) :
    Except DriveError ChangePage :=
  match r.changePages.find? (fun e => e.1 == driveId && e.2.1 == tok) with
  | some e => e.2.2
  | none => .error (.gaxios 500 "changes.list")

/-- The visited-marker check of `syncFiles`: a mirror row for the folder
whose `lastSeenTs` is at or after the generation start. -/
def visitedSince (files : List GoogleDriveFiles) (cid : Nat) (folderId : String)
    (startSyncTs : Nat) : Bool :=
  (files.find? (fun f =>
    f.connectorId == cid && f.driveFileId == folderId &&
      match f.lastSeenTs with
      | some ts => decide (startSyncTs ≤ ts)
      | none => false)).isSome

structure SyncFilesResult where
  nextPageToken : Option String
  count : Nat
  subfolders : List String
deriving Repr, DecidableEq

/-- `syncFiles(connectorId, dataSourceConfig, driveFolderId, startSyncTs,
nextPageToken?)`: one page of the full-sync walk of a folder. Returns the
result (or the thrown error), the updated state, and the trace of remote
Drive API calls issued. -/
def syncFiles (r : Remote) (st : St) (cid : Nat) (driveFolderId : String)
    (startSyncTs now : Nat) (nextPageToken : Option String) :
    Except DriveError SyncFilesResult × St × List RemoteCall :=
  if cid ∈ st.connectors then
    -- The MIME-type set only shapes the remote query string, which the
    -- environment's `listPages` already accounts for.
    let _mimeTypesToSync := getMimeTypesToSync st.pdfEnabled
    match getGoogleDriveObject r driveFolderId with
    | none =>
      -- 404 on the folder: skip it, returning zero work.
      (.ok ⟨none, 0, []⟩, st, [.getObject driveFolderId])
    | some driveFolder =>
      if nextPageToken = none && visitedSince st.files cid driveFolder.id startSyncTs then
        (.ok ⟨none, 0, []⟩, st, [.getObject driveFolderId])
      else
        match lookupListPage r driveFolder.id nextPageToken with
        | none =>
          (.error (.gaxios 500 "files.list"), st,
            [.getObject driveFolderId, .listFiles driveFolder.id nextPageToken])
        | some page =>
          let trace := [RemoteCall.getObject driveFolderId,
                        RemoteCall.listFiles driveFolder.id nextPageToken]
          let kept := page.files.filter (fun f => !falsyS f.id && !falsyS f.createdTime)
          if kept.any (fun f => falsyS f.name || falsyS f.mimeType) then
            (.error (.invalidFile "Invalid file"), st, trace)
          else
            let filesToSync := kept.map driveObjectToDustType
            let subfolders :=
              (filesToSync.filter (fun f => f.mimeType == folderMime)).map (fun f => f.id)
            match filesToSync.foldlM (fun s f =>
                if !f.trashed then .ok (syncOneFile s cid f now)
                else deleteOneFile s cid f) st with
            | .error e => (.error e, st, trace)
            | .ok st1 =>
              (.ok ⟨page.nextPageToken,
                    (filesToSync.filter (fun f => !f.trashed)).length,
                    subfolders⟩, st1, trace)
  else (.error (.notFound "Connector not found"), st, [])

/-- `getSyncPageToken(connectorId, driveId, isSharedDrive)`: the persisted
cursor if one exists, otherwise a freshly minted start-of-feed token from
the remote provider. -/
def getSyncPageToken (r : Remote) (st : St) (cid : Nat) (driveId : String) :
    Except DriveError String :=
  if cid ∈ st.connectors then
    match st.syncTokens.find? (fun t => t.connectorId == cid && t.driveId == driveId) with
    | some last => .ok last.syncToken
    | none =>
      match r.startPageTokens.find? (fun e => e.1 == driveId) with
      | some e => .ok e.2
      | none => .error (.gaxios 500 "getStartPageToken")
  else .error (.notFound "Connector not found")

/-- Loop body of `incrementalSync` for one change-feed entry: filters on
change type, MIME type and id; deletes (or no-ops) for out-of-scope or
trashed files; throws on a missing required field; upserts folders as
metadata only; content-syncs other files. -/
def processChange (r : Remote) (cid : Nat) (selectedFoldersIds : List String)
    (mimeTypesToSync : List String) (now : Nat) (st : St) (c : Change) :
    Except DriveError St :=
  if c.changeType ≠ "file" then .ok st
  else
    match c.file with
    | none => .ok st
    | some f =>
      if falsyS f.mimeType || !mimeTypesToSync.contains (f.mimeType.getD "") then .ok st
      else if falsyS f.id then .ok st
      else
        let file := driveObjectToDustType f
        if !objectIsInFolders r file selectedFoldersIds || f.trashed then
          -- Not in the selected folders (or trashed): garbage collect a
          -- local copy if we have one.
          match findFile st.files cid (f.id.getD "") with
          | none => .ok st
          | some _ => deleteOneFile st cid file
        else if falsyS f.createdTime || falsyS f.name || falsyS f.id then
          .error (.invalidFile "Invalid file")
        else
          let driveFile := driveObjectToDustType f
          if driveFile.mimeType == folderMime then
            let row : GoogleDriveFiles :=
              { connectorId := cid
                dustFileId := getDocumentId driveFile.id
                driveFileId := file.id
                name := file.name
                mimeType := file.mimeType
                parentId := file.parent
                lastSeenTs := some now }
            .ok { st with files := upsertFile st.files row }
          else
            .ok (syncOneFile st cid driveFile now)

/-- Observable events of one `incrementalSync` invocation: `applied i`
marks that entry `i` of the page has been fully handled, `persistedToken`
marks the persistence of a new cursor. -/
inductive SyncEffect where
  | applied (i : Nat)
  | persistedToken (tok : String)
deriving Repr, DecidableEq

/-- Process the entries of one change-feed page in delivery order. On a
thrown error the partial state and the markers of the entries already
applied are kept (the exception propagates past them). -/
def processChanges (r : Remote) (cid : Nat) (selected : List String)
    (mimes : List String) (now : Nat) :
    List Change → Nat → St → Option DriveError × St × List SyncEffect
  | [], _, st => (none, st, [])
  | c :: cs, i, st =>
    match processChange r cid selected mimes now st c with
    | .error e => (some e, st, [])
    | .ok st1 =>
      let rest := processChanges r cid selected mimes now cs (i + 1) st1
      (rest.1, rest.2.1, .applied i :: rest.2.2)

/-- Body of `incrementalSync` (everything inside the `try`): resolve the
cursor, read one change page, apply its entries in order, then persist the
new start token (when the remote supplied one) and return the continuation
token (`none` models `undefined`: feed exhausted). -/
def incrementalSyncBody (r : Remote) (st : St) (cid : Nat) (driveId : String)
    (now : Nat) (nextPageToken : Option String) :
    Except DriveError (Option String) × St × List SyncEffect :=
  if cid ∈ st.connectors then
    match (match nextPageToken with
           | some t => Except.ok t
           | none => getSyncPageToken r st cid driveId) with
    | .error e => (.error e, st, [])
    | .ok tok =>
      let mimeTypesToSync := getMimeTypesToSync st.pdfEnabled
      let selectedFoldersIds := getFoldersToSync st cid
      match lookupChangePage r driveId tok with
      | .error e => (.error e, st, [])
      | .ok page =>
        match processChanges r cid selectedFoldersIds mimeTypesToSync now
            page.changes 0 st with
        | (some e, st1, trace) => (.error e, st1, trace)
        | (none, st1, trace) =>
          match page.newStartPageToken with
          | some t =>
            let tokRow : GoogleDriveSyncToken :=
              { connectorId := cid, driveId := driveId, syncToken := t }
            (.ok page.nextPageToken,
             { st1 with syncTokens := upsertSyncToken st1.syncTokens tokRow },
             trace ++ [.persistedToken t])
          | none => (.ok page.nextPageToken, st1, trace)
  else (.error (.notFound "Connector not found"), st, [])

/-- The test of the catch block of `incrementalSync`:
`e instanceof GaxiosError && e.response?.status === 403`. -/
def isLossOfAccess : DriveError → Bool
  | .gaxios status _ => status == 403
  | _ => false

/-- `incrementalSync(connectorId, dataSourceConfig, driveId, isSharedDrive,
startSyncTs, nextPageToken?)`: the body wrapped in the catch that logs and
swallows a `GaxiosError` with HTTP status 403 (loss of access, terminal
for this drive) and rethrows everything else. -/
def incrementalSync (r : Remote) (st : St) (cid : Nat) (driveId : String)
    (now : Nat) (nextPageToken : Option String) :
    Except DriveError (Option String) × St × List SyncEffect :=
  match incrementalSyncBody r st cid driveId now nextPageToken with
  | (.error e, st1, trace) =>
    if isLossOfAccess e then (.ok none, st1, trace) else (.error e, st1, trace)
  | other => other

/-- Staleness test of the garbage collector's candidate query:
`lastSeenTs` strictly before the cutoff, or never set. -/
def staleBefore (f : GoogleDriveFiles) (cutoff : Nat) : Bool :=
  match f.lastSeenTs with
  | some ts => decide (ts < cutoff)
  | none => true

/-- The candidate page of `garbageCollector`: mirror rows of the connector
not seen since the cutoff, bounded by the page size of 100. -/
def gcCandidates (st : St) (cid : Nat) (cutoff : Nat) : List GoogleDriveFiles :=
  ((st.files.filter (fun f => f.connectorId == cid && staleBefore f cutoff)).take 100)

/-- One garbage-collection candidate: re-fetch from the remote; delete the
local mirror when the object is gone, trashed, or out of scope; otherwise
refresh its `lastSeenTs`. -/
def gcStep (r : Remote) (cid : Nat) (selectedFolders : List String) (now : Nat)
    (st : St) (file : GoogleDriveFiles) : Except DriveError St :=
  match getGoogleDriveObject r file.driveFileId with
  | none => deleteFile st file
  | some driveFile =>
    if !objectIsInFolders r driveFile selectedFolders || driveFile.trashed then
      deleteOneFile st cid driveFile
    else
      let files1 := st.files.map (fun g =>
        if rowKey g == rowKey file then { g with lastSeenTs := some now } else g)
      .ok { st with files := files1 }

/-- `garbageCollector(connectorId, lastSeenTs)`: process one page of stale
candidates and return the number of candidates in the page. -/
def garbageCollector (r : Remote) (st : St) (cid : Nat) (cutoff now : Nat) :
    Except DriveError (St × Nat) :=
  if cid ∈ st.connectors then
    let files := gcCandidates st cid cutoff
    let selectedFolders := getFoldersToSync st cid
    match files.foldlM (gcStep r cid selectedFolders now) st with
    | .error e => .error e
    | .ok st1 => .ok (st1, files.length)
  else .error (.notFound "Connector not found")

/-- `GOOGLE_DRIVE_WEBHOOK_RENEW_MARGIN_MS`: the one-hour lookahead used to
select webhooks about to need renewal. -/
def GOOGLE_DRIVE_WEBHOOK_RENEW_MARGIN_MS : Nat := 60 * 60 * 1000

/-- Lifetime of a freshly registered webhook subscription. -/
def WEBHOOK_TTL_MS : Nat := 7 * 24 * 60 * 60 * 1000

/-- The fixed two-hour cool-down by which a failed renewal is deferred
(`renewAt = NOW() + INTERVAL '2 hour'`). -/
def RENEW_RETRY_MS : Nat := 2 * 60 * 60 * 1000

/-- The three-day retention window past expiry before a superseded webhook
row is permanently destroyed. -/
def CLEANUP_RETENTION_MS : Nat := 3 * 24 * 60 * 60 * 1000

/-- The loss-of-access error classification of the renewal catch block:
`ExternalOauthTokenError`, or an `HTTPError` with the caller-permission
message. -/
def isAuthRevokedError : DriveError → Bool
  | .externalOauthToken => true
  | .httpError m => m == "The caller does not have permission"
  | _ => false

/-- Outcome the remote registration reports for a drive. -/
def lookupEnsure (r : Remote) (driveId : String) :
    Except DriveError (Option String) :=
  match r.ensureResults.find? (fun e => e.1 == driveId) with
  | some e => e.2
  | none => .error (.httpError "ensure webhook failed")

/-- A fresh primary key for a new webhook row. -/
def freshWebhookRowId (l : List GoogleDriveWebhook) : Nat :=
  (l.map (fun w => w.id)).foldr max 0 + 1

/-- The webhook row recorded for a freshly registered subscription. -/
def newWebhookRow (st : St) (cid : Nat) (driveId whId : String)
    (marginMs now : Nat) : GoogleDriveWebhook :=
  { id := freshWebhookRowId st.webhooks
    connectorId := cid
    driveId := driveId
    webhookId := whId
    expiresAt := now + WEBHOOK_TTL_MS
    renewAt := now + WEBHOOK_TTL_MS - marginMs
    renewedByWebhookId := none }

/-- Modelled from the spec: `ensureWebhookForDriveId` (in
`google_drive/lib`, not under `src/`) requests a new push-notification
subscription for the drive from the remote provider (§4.3), records it as
a fresh non-superseded webhook row, and returns the new subscription id;
failures are returned as `Err` for the caller to handle. -/
def ensureWebhookForDriveId (r : Remote) (st : St) (cid : Nat) (driveId : String)
    (marginMs now : Nat) : St × Except DriveError (Option String) :=
  match lookupEnsure r driveId with
  | .error e => (st, .error e)
  | .ok none => (st, .ok none)
  | .ok (some whId) =>
    ({ st with webhooks :=
        st.webhooks ++ [newWebhookRow st cid driveId whId marginMs now] },
     .ok (some whId))

/-- Observable events of one renewal pass. -/
inductive RenewEvent where
  | processed (id : Nat)
  | destroyed (id : Nat)
  | renewed (id : Nat) (newWebhookId : String)
  | deferred (id : Nat)
deriving Repr, DecidableEq

/-- Loop body of `renewWebhooks` for one selected webhook: skip when the
connector row is gone; retire the subscription when the drive is no longer
accessible; otherwise register a replacement and link the old record to it
via `renewedByWebhookId`; on failure mark the connector failed for
authorization errors and defer the retry by the fixed cool-down in either
case, without deleting the record. -/
def renewOneWebhook (r : Remote) (now : Nat) (st : St) (wh : GoogleDriveWebhook) :
    St × List RenewEvent :=
  if wh.connectorId ∈ st.connectors then
    match getGoogleDriveObject r wh.driveId with
    | none =>
      -- We lost access to the drive: delete the associated webhook.
      ({ st with webhooks := st.webhooks.filter (fun w => w.id ≠ wh.id) },
       [.processed wh.id, .destroyed wh.id])
    | some _ =>
      match ensureWebhookForDriveId r st wh.connectorId wh.driveId
          GOOGLE_DRIVE_WEBHOOK_RENEW_MARGIN_MS now with
      | (st1, .ok (some newId)) =>
        -- Mark the previous webhook as renewed by the new one.
        let webhooks1 := st1.webhooks.map (fun w =>
          if w.id = wh.id then { w with renewedByWebhookId := some newId } else w)
        ({ st1 with webhooks := webhooks1 }, [.processed wh.id, .renewed wh.id newId])
      | (st1, .ok none) =>
        -- Unexpected: logged as a panic, no state change.
        (st1, [.processed wh.id])
      | (st1, .error e) =>
        let st2 :=
          if isAuthRevokedError e then syncFailed st1 wh.connectorId else st1
        let webhooks2 := st2.webhooks.map (fun w =>
          if w.id = wh.id then { w with renewAt := now + RENEW_RETRY_MS } else w)
        ({ st2 with webhooks := webhooks2 }, [.processed wh.id, .deferred wh.id])
  else (st, [.processed wh.id])

/-- Eligibility of the renewal query: `renewAt` within the lookahead margin
of now, and not already superseded. -/
def webhookEligible (now : Nat) (w : GoogleDriveWebhook) : Bool :=
  decide (w.renewAt < now + GOOGLE_DRIVE_WEBHOOK_RENEW_MARGIN_MS) &&
    w.renewedByWebhookId == none

/-- The batch selected by one renewal pass (`findAll` with `limit pageSize`). -/
def selectedWebhooks (st : St) (now pageSize : Nat) : List GoogleDriveWebhook :=
  (st.webhooks.filter (webhookEligible now)).take pageSize

/-- Cleanup predicate of the final sweep: expired more than the retention
window ago and already superseded. -/
def cleanupPred (now : Nat) (w : GoogleDriveWebhook) : Bool :=
  decide (w.expiresAt + CLEANUP_RETENTION_MS < now) && w.renewedByWebhookId != none

/-- `destroy` with a `limit`: remove the first `n` rows matching `p`. -/
def removeLimited (p : GoogleDriveWebhook → Bool) :
    Nat → List GoogleDriveWebhook → List GoogleDriveWebhook
  | _, [] => []
  | 0, l => l
  | n + 1, w :: l =>
    if p w then removeLimited p n l else w :: removeLimited p (n + 1) l

/-- The renewal loop over one selected batch, processing each webhook in
order and concatenating the event logs. -/
def renewRun (r : Remote) (now : Nat) :
    List GoogleDriveWebhook → St → St × List RenewEvent
  | [], st => (st, [])
  | wh :: l, st =>
    ((renewRun r now l (renewOneWebhook r now st wh).1).1,
     (renewOneWebhook r now st wh).2 ++
       (renewRun r now l (renewOneWebhook r now st wh).1).2)

/-- `renewWebhooks(pageSize)`: select the batch, renew each member, sweep
superseded rows past their retention window, and return the batch size. -/
def renewWebhooks (r : Remote) (now : Nat) (st : St) (pageSize : Nat) :
    St × Nat × List RenewEvent :=
  let batch := selectedWebhooks st now pageSize
  let run := renewRun r now batch st
  ({ run.1 with
      webhooks := removeLimited (cleanupPred now) pageSize run.1.webhooks },
   batch.length, run.2)

end GDrive

/-! ## Table lemmas -/
namespace GDrive

theorem findFile_key {files : List GoogleDriveFiles} {cid : Nat} {fid : String}
    {row : GoogleDriveFiles} (h : findFile files cid fid = some row) :
    row ∈ files ∧ row.connectorId = cid ∧ row.driveFileId = fid := by
  have hmem := List.mem_of_find?_eq_some h
  have hp := List.find?_some h
  simp only [Bool.and_eq_true, beq_iff_eq] at hp
  exact ⟨hmem, hp.1, hp.2⟩

theorem findFile_cons (f : GoogleDriveFiles) (fs : List GoogleDriveFiles)
    (cid : Nat) (fid : String) :
    findFile (f :: fs) cid fid =
      if f.connectorId == cid && f.driveFileId == fid then some f
      else findFile fs cid fid := by
  simp only [findFile, List.find?_cons]
  cases h : (f.connectorId == cid && f.driveFileId == fid) <;> simp [h]

theorem rowKey_eq_iff {f : GoogleDriveFiles} {cid : Nat} {fid : String} :
    (f.connectorId == cid && f.driveFileId == fid) = true ↔ rowKey f = (cid, fid) := by
  simp [rowKey, Prod.ext_iff]

theorem findFile_filter_self (files : List GoogleDriveFiles) (k : Nat × String) :
    findFile (files.filter (fun g => rowKey g ≠ k)) k.1 k.2 = none := by
  rw [findFile, List.find?_eq_none]
  intro f hf
  rcases List.mem_filter.mp hf with ⟨-, hne⟩
  simp only [decide_eq_true_eq] at hne
  intro hp
  exact hne (by rw [rowKey_eq_iff.mp hp])

theorem findFile_filter_frame (files : List GoogleDriveFiles) (k0 : Nat × String)
    (cid : Nat) (fid : String) (hne : (cid, fid) ≠ k0) :
    findFile (files.filter (fun g => rowKey g ≠ k0)) cid fid =
      findFile files cid fid := by
  induction files with
  | nil => rfl
  | cons f fs ih =>
    by_cases hf : rowKey f = k0
    · have hd : (decide (rowKey f ≠ k0)) = false := by simp [hf]
      have hp : (f.connectorId == cid && f.driveFileId == fid) = false := by
        apply Bool.eq_false_iff.mpr
        rw [Ne, rowKey_eq_iff, hf]
        exact fun hcon => hne hcon.symm
      rw [List.filter_cons, hd]
      simp only [Bool.false_eq_true, if_false]
      rw [findFile_cons, if_neg (by simp [hp])]
      exact ih
    · have hd : (decide (rowKey f ≠ k0)) = true := by simp [hf]
      rw [List.filter_cons, hd]
      simp only [if_true]
      rw [findFile_cons, findFile_cons]
      cases hp : (f.connectorId == cid && f.driveFileId == fid) with
      | true => simp [hp]
      | false => simp only [hp, Bool.false_eq_true, if_false]; exact ih

theorem findFile_map_refresh_frame (files : List GoogleDriveFiles)
    (k0 : Nat × String) (now : Nat) (cid : Nat) (fid : String)
    (hne : (cid, fid) ≠ k0) :
    findFile (files.map (fun g =>
        if rowKey g == k0 then { g with lastSeenTs := some now } else g)) cid fid =
      findFile files cid fid := by
  induction files with
  | nil => rfl
  | cons f fs ih =>
    rw [List.map_cons]
    by_cases hf : rowKey f = k0
    · have hb : (rowKey f == k0) = true := by simp [hf]
      have hp : (f.connectorId == cid && f.driveFileId == fid) = false := by
        apply Bool.eq_false_iff.mpr
        rw [Ne, rowKey_eq_iff, hf]
        exact fun hcon => hne hcon.symm
      rw [hb]
      simp only [if_true]
      rw [findFile_cons, findFile_cons, if_neg (by simp [hp]), if_neg (by simp [hp])]
      exact ih
    · have hb : (rowKey f == k0) = false := by simp [hf]
      rw [hb]
      simp only [Bool.false_eq_true, if_false]
      rw [findFile_cons, findFile_cons]
      cases hp : (f.connectorId == cid && f.driveFileId == fid) with
      | true => simp [hp]
      | false => simp only [hp, Bool.false_eq_true, if_false]; exact ih

theorem findFile_map_refresh_self (files : List GoogleDriveFiles)
    (k0 : Nat × String) (now : Nat) :
    findFile (files.map (fun g =>
        if rowKey g == k0 then { g with lastSeenTs := some now } else g)) k0.1 k0.2 =
      (findFile files k0.1 k0.2).map (fun g => { g with lastSeenTs := some now }) := by
  induction files with
  | nil => rfl
  | cons f fs ih =>
    rw [List.map_cons]
    by_cases hf : rowKey f = k0
    · have hb : (rowKey f == k0) = true := by simp [hf]
      have hp : (f.connectorId == k0.1 && f.driveFileId == k0.2) = true := by
        rw [rowKey_eq_iff, hf]
      rw [hb]
      simp only [if_true]
      rw [findFile_cons, findFile_cons, if_pos (by simp [hp]), if_pos (by simp [hp])]
      rfl
    · have hb : (rowKey f == k0) = false := by simp [hf]
      have hp : (f.connectorId == k0.1 && f.driveFileId == k0.2) = false := by
        apply Bool.eq_false_iff.mpr
        rw [Ne, rowKey_eq_iff]
        exact fun hcon => hf (by rw [hcon])
      rw [hb]
      simp only [Bool.false_eq_true, if_false]
      rw [findFile_cons, findFile_cons, if_neg (by simp [hp]), if_neg (by simp [hp])]
      exact ih

theorem findFile_of_mem_nodup {files : List GoogleDriveFiles}
    {f : GoogleDriveFiles} (hmem : f ∈ files)
    (hnd : (files.map rowKey).Nodup) :
    findFile files f.connectorId f.driveFileId = some f := by
  induction files with
  | nil => cases hmem
  | cons g gs ih =>
    rw [List.map_cons, List.nodup_cons] at hnd
    rw [findFile_cons]
    rcases List.mem_cons.mp hmem with heq | htl
    · subst heq
      rw [if_pos (by simp)]
    · have hk : rowKey g ≠ rowKey f := fun hcon =>
        hnd.1 (hcon ▸ List.mem_map_of_mem rowKey htl)
      have hp : (g.connectorId == f.connectorId && g.driveFileId == f.driveFileId) = false := by
        apply Bool.eq_false_iff.mpr
        rw [Ne, rowKey_eq_iff]
        exact fun hcon => hk hcon
      rw [if_neg (by simp [hp])]
      exact ih htl hnd.2

theorem not_mem_filter_ne_self (l : List String) (a : String) :
    a ∉ l.filter (fun d => d ≠ a) := by
  intro h
  rcases List.mem_filter.mp h with ⟨-, hne⟩
  simp at hne

/-! ## C10 — deletion routing of `deleteFile` -/

/-- C10: `deleteFile` always destroys the mirror row; the downstream index
document delete is issued only for non-folder, non-spreadsheet files;
spreadsheets are routed to the dedicated spreadsheet deletion path; a
folder's deletion leaves the downstream index entirely untouched. -/
theorem deleteFile_downstream_routing (st : St) (row : GoogleDriveFiles)
    (hc : row.connectorId ∈ st.connectors) :
    ∃ st', deleteFile st row = .ok st' ∧
      st'.files = st.files.filter (fun g => rowKey g ≠ rowKey row) ∧
      findFile st'.files row.connectorId row.driveFileId = none ∧
      (row.mimeType = folderMime → st'.ds = st.ds) ∧
      (isGoogleDriveSpreadSheetFile row = true →
        st'.ds.docs = st.ds.docs ∧
        st'.ds.sheets = st.ds.sheets.filter (fun p => p.1 ≠ row.driveFileId)) ∧
      (isGoogleDriveSpreadSheetFile row = false → row.mimeType ≠ folderMime →
        st'.ds.sheets = st.ds.sheets ∧
        st'.ds.docs = st.ds.docs.filter (fun d => d ≠ row.dustFileId) ∧
        row.dustFileId ∉ st'.ds.docs) := by
  refine ⟨deleteFileT st row, ?_, ?_, ?_, ?_, ?_, ?_⟩
  · rw [deleteFile, if_pos hc]
  · rfl
  · exact findFile_filter_self st.files (rowKey row)
  · intro hfolder
    have hsp : isGoogleDriveSpreadSheetFile row = false := by
      rw [isGoogleDriveSpreadSheetFile, hfolder]
      decide
    simp [deleteFileT, hsp, hfolder]
  · intro hsp
    simp [deleteFileT, hsp, deleteSpreadsheet]
  · intro hsp hfolder
    refine ⟨?_, ?_, ?_⟩
    · simp [deleteFileT, hsp, hfolder, deleteFromDataSource]
    · simp [deleteFileT, hsp, hfolder, deleteFromDataSource]
    · have h1 : (deleteFileT st row).ds.docs =
          st.ds.docs.filter (fun d => d ≠ row.dustFileId) := by
        simp [deleteFileT, hsp, hfolder, deleteFromDataSource]
      rw [h1]
      exact not_mem_filter_ne_self _ _

def rowC10 : GoogleDriveFiles :=
  { connectorId := 1, dustFileId := "gdrive-F1", driveFileId := "F1", name := "F1",
    mimeType := folderMime, parentId := none, lastSeenTs := some 10 }

def stC10 : St :=
  { connectors := [1], failedConnectors := [], pdfEnabled := false,
    files := [rowC10], folders := [], syncTokens := [], webhooks := [],
    ds := { docs := ["gdrive-x"], sheets := [("s1", "t1")] } }

theorem deleteFile_downstream_routing_witness :
    ∃ st', deleteFile stC10 rowC10 = .ok st' ∧
      st'.files = stC10.files.filter (fun g => rowKey g ≠ rowKey rowC10) ∧
      findFile st'.files rowC10.connectorId rowC10.driveFileId = none ∧
      (rowC10.mimeType = folderMime → st'.ds = stC10.ds) ∧
      (isGoogleDriveSpreadSheetFile rowC10 = true →
        st'.ds.docs = stC10.ds.docs ∧
        st'.ds.sheets = stC10.ds.sheets.filter (fun p => p.1 ≠ rowC10.driveFileId)) ∧
      (isGoogleDriveSpreadSheetFile rowC10 = false → rowC10.mimeType ≠ folderMime →
        st'.ds.sheets = stC10.ds.sheets ∧
        st'.ds.docs = stC10.ds.docs.filter (fun d => d ≠ rowC10.dustFileId) ∧
        rowC10.dustFileId ∉ st'.ds.docs) :=
  deleteFile_downstream_routing stC10 rowC10 (by decide)

/-! ## C7 — loss-of-access handling of `incrementalSync` -/

/-- C7: when the body of `incrementalSync` throws, the wrapper swallows
exactly the `GaxiosError`-with-status-403 (loss of access) case and
returns `undefined` (modelled `none`) with the partial state intact, and
propagates every other error unchanged; `isLossOfAccess` holds exactly on
`gaxios 403` errors. -/
theorem incrementalSync_loss_of_access (r : Remote) (st : St) (cid : Nat)
    (driveId : String) (now : Nat) (tok : Option String) (e : DriveError)
    (st1 : St) (trace : List SyncEffect)
    (hbody : incrementalSyncBody r st cid driveId now tok = (.error e, st1, trace)) :
    (isLossOfAccess e = true →
       incrementalSync r st cid driveId now tok = (.ok none, st1, trace)) ∧
    (isLossOfAccess e = false →
       incrementalSync r st cid driveId now tok = (.error e, st1, trace)) ∧
    (∀ m : String, isLossOfAccess (.gaxios 403 m) = true) ∧
    (∀ (status : Nat) (m : String), status ≠ 403 →
       isLossOfAccess (.gaxios status m) = false) ∧
    (∀ m : String, isLossOfAccess (.invalidFile m) = false) ∧
    (∀ m : String, isLossOfAccess (.notFound m) = false) ∧
    isLossOfAccess .externalOauthToken = false ∧
    (∀ m : String, isLossOfAccess (.httpError m) = false) := by
  refine ⟨?_, ?_, ?_, ?_, ?_, ?_, ?_, ?_⟩
  · intro h403
    rw [incrementalSync, hbody]
    simp [h403]
  · intro hnot
    rw [incrementalSync, hbody]
    simp [hnot]
  · intro m; rfl
  · intro status m hne
    simp [isLossOfAccess, hne]
  · intro m; rfl
  · intro m; rfl
  · rfl
  · intro m; rfl

def stC7 : St :=
  { connectors := [1], failedConnectors := [], pdfEnabled := false,
    files := [], folders := [], syncTokens := [], webhooks := [],
    ds := { docs := [], sheets := [] } }

def rC7 : Remote :=
  { objects := [], listPages := [],
    changePages := [("d", "t0", .error (.gaxios 403 "insufficient permissions"))],
    startPageTokens := [], ensureResults := [] }

theorem incrementalSync_loss_of_access_witness :
    incrementalSync rC7 stC7 1 "d" 9 (some "t0") = (.ok none, stC7, []) :=
  (incrementalSync_loss_of_access rC7 stC7 1 "d" 9 (some "t0")
    (.gaxios 403 "insufficient permissions") stC7 [] (by rfl)).1 (by rfl)

/-! ## C8 — renewal failure handling -/

/-- C8: during webhook renewal, when the drive is still reachable but the
renewal request fails, an authorization failure marks the connector's sync
as failed while a transient failure leaves the connector unmarked; in both
cases the subscription's retry is deferred by the same fixed cool-down and
the record is kept, not deleted. -/
theorem renewOneWebhook_failure_handling (r : Remote) (now : Nat) (st : St)
    (wh : GoogleDriveWebhook) (e : DriveError) (o : GoogleDriveObjectType)
    (hc : wh.connectorId ∈ st.connectors)
    (hdrive : getGoogleDriveObject r wh.driveId = some o)
    (hens : lookupEnsure r wh.driveId = .error e)
    (hwh : wh ∈ st.webhooks) :
    (renewOneWebhook r now st wh).1.webhooks.length = st.webhooks.length ∧
    { wh with renewAt := now + RENEW_RETRY_MS } ∈
      (renewOneWebhook r now st wh).1.webhooks ∧
    (renewOneWebhook r now st wh).2 = [.processed wh.id, .deferred wh.id] ∧
    (isAuthRevokedError e = true →
      (renewOneWebhook r now st wh).1.failedConnectors =
        wh.connectorId :: st.failedConnectors) ∧
    (isAuthRevokedError e = false →
      (renewOneWebhook r now st wh).1.failedConnectors = st.failedConnectors) := by
  have hensr : ensureWebhookForDriveId r st wh.connectorId wh.driveId
      GOOGLE_DRIVE_WEBHOOK_RENEW_MARGIN_MS now = (st, .error e) := by
    simp only [ensureWebhookForDriveId, hens]
  have hmain : renewOneWebhook r now st wh =
      ({ (if isAuthRevokedError e then syncFailed st wh.connectorId else st) with
          webhooks := (if isAuthRevokedError e then syncFailed st wh.connectorId
            else st).webhooks.map (fun w =>
              if w.id = wh.id then { w with renewAt := now + RENEW_RETRY_MS } else w) },
       [.processed wh.id, .deferred wh.id]) := by
    rw [renewOneWebhook, if_pos hc, hdrive]
    simp only [hensr]
  have hwebs : ∀ b : Bool,
      (if b = true then syncFailed st wh.connectorId else st).webhooks = st.webhooks := by
    intro b; cases b <;> simp [syncFailed]
  refine ⟨?_, ?_, ?_, ?_, ?_⟩
  · rw [hmain]
    cases hb : isAuthRevokedError e <;> simp [syncFailed]
  · rw [hmain]
    cases hb : isAuthRevokedError e <;>
    · simp only [syncFailed]
      have := List.mem_map_of_mem (fun w =>
        if w.id = wh.id then { w with renewAt := now + RENEW_RETRY_MS } else w) hwh
      simpa using this
  · rw [hmain]
  · intro hb
    rw [hmain]
    simp [hb, syncFailed]
  · intro hb
    rw [hmain]
    simp [hb, syncFailed]

def whC8 : GoogleDriveWebhook :=
  { id := 7, connectorId := 1, driveId := "d1", webhookId := "wa",
    expiresAt := 200, renewAt := 30, renewedByWebhookId := none }

def stC8 : St :=
  { connectors := [1], failedConnectors := [], pdfEnabled := false,
    files := [], folders := [], syncTokens := [], webhooks := [whC8],
    ds := { docs := [], sheets := [] } }

def objC8 : GoogleDriveObjectType :=
  { id := "d1", name := "D1", mimeType := folderMime, parent := none,
    trashed := false, createdTime := "t" }

def rC8 : Remote :=
  { objects := [objC8], listPages := [], changePages := [],
    startPageTokens := [],
    ensureResults := [("d1", .error .externalOauthToken)] }

theorem renewOneWebhook_failure_handling_witness :
    (renewOneWebhook rC8 40 stC8 whC8).1.webhooks.length = stC8.webhooks.length ∧
    { whC8 with renewAt := 40 + RENEW_RETRY_MS } ∈
      (renewOneWebhook rC8 40 stC8 whC8).1.webhooks ∧
    (renewOneWebhook rC8 40 stC8 whC8).1.failedConnectors =
      whC8.connectorId :: stC8.failedConnectors :=
  have h := renewOneWebhook_failure_handling rC8 40 stC8 whC8 .externalOauthToken
    objC8 (by decide) (by rfl) (by rfl) (by simp [stC8])
  ⟨h.1, h.2.1, h.2.2.2.1 (by rfl)⟩

/-! ## C9 — required-field validation of incremental sync entries -/

def fC9 : RawFile :=
  { id := none, name := some "a",
    mimeType := some "application/vnd.google-apps.document", parent := none,
    trashed := false, createdTime := some "t" }

/-- C9 counterexample: a change-feed entry that passes the changeType and
MIME-type filters but is missing its id is silently skipped (the call
returns with the state unchanged and no error), contradicting the claim
that a hard error is thrown. -/
theorem processChange_missing_id_skipped_counterexample :
    falsyS fC9.mimeType = false ∧
    (getMimeTypesToSync false).contains (fC9.mimeType.getD "") = true ∧
    falsyS fC9.id = true ∧
    processChange rC7 1 [] (getMimeTypesToSync false) 5 stC7
      { changeType := "file", file := some fC9 } = .ok stC7 :=
  ⟨by rfl, by rfl, by rfl, by rfl⟩

/-- C9 (amended): an entry passing the changeType and MIME-type filters
whose file has no id is silently skipped; when the id is present and the
file is in scope and not trashed, a missing createdTime or name throws a
hard `invalidFile` error rather than being skipped. -/
theorem processChange_missing_required_fields (r : Remote) (cid : Nat)
    (selected : List String) (mimes : List String) (now : Nat) (st : St)
    (c : Change) (f : RawFile)
    (hct : c.changeType = "file") (hfile : c.file = some f)
    (hmime : falsyS f.mimeType = false)
    (hmem : mimes.contains (f.mimeType.getD "") = true) :
    (falsyS f.id = true → processChange r cid selected mimes now st c = .ok st) ∧
    (falsyS f.id = false →
      objectIsInFolders r (driveObjectToDustType f) selected = true →
      f.trashed = false →
      (falsyS f.createdTime = true ∨ falsyS f.name = true) →
      processChange r cid selected mimes now st c =
        .error (.invalidFile "Invalid file")) := by
  have hmem' : f.mimeType.getD "" ∈ mimes := by simpa using hmem
  constructor
  · intro hid
    rw [processChange]
    simp [hct, hfile, hmime, hmem, hmem', hid]
  · intro hid hscope htr hmiss
    rw [processChange]
    rcases hmiss with hm | hm <;>
      simp [hct, hfile, hmime, hmem, hmem', hid, hscope, htr, hm]

def fW9 : RawFile :=
  { id := some "doc1", name := none,
    mimeType := some "application/vnd.google-apps.document", parent := none,
    trashed := false, createdTime := some "t" }

theorem processChange_missing_required_fields_witness :
    processChange rC7 1 ["doc1"] (getMimeTypesToSync false) 5 stC7
      { changeType := "file", file := some fW9 } =
      .error (.invalidFile "Invalid file") :=
  (processChange_missing_required_fields rC7 1 ["doc1"] (getMimeTypesToSync false)
      5 stC7 { changeType := "file", file := some fW9 } fW9
      (by rfl) (by rfl) (by rfl) (by rfl)).2
    (by rfl) (by rfl) (by rfl) (Or.inr (by rfl))

/-! ## C1 — full-sync folder revisit short-circuit -/

def rowC1 : GoogleDriveFiles :=
  { connectorId := 1, dustFileId := "gdrive-F", driveFileId := "F", name := "F",
    mimeType := folderMime, parentId := none, lastSeenTs := some 10 }

def stC1 : St :=
  { connectors := [1], failedConnectors := [], pdfEnabled := false,
    files := [rowC1], folders := [(1, "F")], syncTokens := [], webhooks := [],
    ds := { docs := [], sheets := [] } }

def rC1 : Remote :=
  { objects := [{ id := "F", name := "F", mimeType := folderMime, parent := none,
                  trashed := false, createdTime := "t" }],
    listPages := [], changePages := [], startPageTokens := [], ensureResults := [] }

/-- C1 counterexample: calling `syncFiles` with no page cursor on a folder
already visited at-or-after the generation start does return empty
results, but still issues one remote call — the folder metadata fetch —
so the revisit does not perform zero remote calls. -/
theorem syncFiles_visited_remote_call_counterexample :
    visitedSince stC1.files 1 "F" 10 = true ∧
    (syncFiles rC1 stC1 1 "F" 10 20 none).2.2 = [.getObject "F"] ∧
    (syncFiles rC1 stC1 1 "F" 10 20 none).2.2 ≠ [] :=
  ⟨by rfl, by rfl, by decide⟩

/-- C1 (amended): with no page cursor, on a folder whose mirror row was
already marked visited at-or-after the generation start, `syncFiles`
short-circuits: beyond the single folder-metadata fetch it performs no
further remote calls (in particular no file-listing call), returns empty
results (`nextPageToken` null, count 0, no subfolders), and leaves the
state unchanged. -/
theorem syncFiles_visited_short_circuit (r : Remote) (st : St) (cid : Nat)
    (folderId : String) (startSyncTs now : Nat) (folder : GoogleDriveObjectType)
    (hc : cid ∈ st.connectors)
    (hobj : getGoogleDriveObject r folderId = some folder)
    (hvis : visitedSince st.files cid folder.id startSyncTs = true) :
    syncFiles r st cid folderId startSyncTs now none =
      (.ok { nextPageToken := none, count := 0, subfolders := [] }, st,
       [.getObject folderId]) := by
  rw [syncFiles, if_pos hc]
  simp only [hobj]
  simp [hvis]

theorem syncFiles_visited_short_circuit_witness :
    syncFiles rC1 stC1 1 "F" 10 20 none =
      (.ok { nextPageToken := none, count := 0, subfolders := [] }, stC1,
       [.getObject "F"]) :=
  syncFiles_visited_short_circuit rC1 stC1 1 "F" 10 20
    { id := "F", name := "F", mimeType := folderMime, parent := none,
      trashed := false, createdTime := "t" }
    (by decide) (by rfl) (by rfl)

/-! ## C6 — what `garbageCollector` returns -/

theorem gcCandidates_spec {st : St} {cid cutoff : Nat} {f : GoogleDriveFiles}
    (hf : f ∈ gcCandidates st cid cutoff) :
    f ∈ st.files ∧ f.connectorId = cid ∧ staleBefore f cutoff = true := by
  have h1 := List.mem_of_mem_take hf
  rcases List.mem_filter.mp h1 with ⟨hmem, hp⟩
  simp only [Bool.and_eq_true, beq_iff_eq] at hp
  exact ⟨hmem, hp.1, hp.2⟩

theorem gcStep_ok (r : Remote) (cid : Nat) (sel : List String) (now : Nat)
    (st : St) (file : GoogleDriveFiles)
    (hfc : file.connectorId = cid) (hc : cid ∈ st.connectors) :
    ∃ st', gcStep r cid sel now st file = .ok st' ∧
      st'.connectors = st.connectors := by
  cases hobj : getGoogleDriveObject r file.driveFileId with
  | none =>
    have heq : gcStep r cid sel now st file = deleteFile st file := by
      simp [gcStep, hobj]
    rw [heq, deleteFile, if_pos (by rw [hfc]; exact hc)]
    exact ⟨deleteFileT st file, rfl, rfl⟩
  | some o =>
    by_cases hbr : (!objectIsInFolders r o sel || o.trashed) = true
    · have heq : gcStep r cid sel now st file = deleteOneFile st cid o := by
        simp [gcStep, hobj, hbr]
      cases hrow : findFile st.files cid o.id with
      | none =>
        have heq2 : gcStep r cid sel now st file = .ok st := by
          rw [heq]; simp [deleteOneFile, hrow]
        rw [heq2]
        exact ⟨st, rfl, rfl⟩
      | some row =>
        have heq2 : gcStep r cid sel now st file = deleteFile st row := by
          rw [heq]; simp [deleteOneFile, hrow]
        rw [heq2, deleteFile, if_pos (by rw [(findFile_key hrow).2.1]; exact hc)]
        exact ⟨deleteFileT st row, rfl, rfl⟩
    · have heq : gcStep r cid sel now st file =
          .ok { st with files := st.files.map (fun g =>
            if rowKey g == rowKey file then { g with lastSeenTs := some now }
            else g) } := by
        simp [gcStep, hobj, hbr]
      rw [heq]
      exact ⟨_, rfl, rfl⟩

theorem gcFold_ok (r : Remote) (cid : Nat) (sel : List String) (now : Nat) :
    ∀ (l : List GoogleDriveFiles) (st : St), (∀ f ∈ l, f.connectorId = cid) →
      cid ∈ st.connectors →
      ∃ st', l.foldlM (gcStep r cid sel now) st = .ok st' ∧
        st'.connectors = st.connectors := by
  intro l
  induction l with
  | nil => exact fun st _ _ => ⟨st, rfl, rfl⟩
  | cons f fs ih =>
    intro st hall hc
    obtain ⟨st1, hstep, hconn⟩ := gcStep_ok r cid sel now st f (hall f (by simp)) hc
    obtain ⟨st', hfold, hconn'⟩ := ih st1 (fun g hg => hall g (by simp [hg]))
      (by rw [hconn]; exact hc)
    refine ⟨st', ?_, by rw [hconn', hconn]⟩
    rw [List.foldlM_cons, hstep]
    exact hfold

/-- C6 (amended): `garbageCollector` returns the number of stale candidates
examined in the page — candidates that are merely refreshed are counted
too — rather than the number of mirrored objects actually reclaimed. -/
theorem garbageCollector_returns_candidate_count (r : Remote) (st : St)
    (cid : Nat) (cutoff now : Nat) (hc : cid ∈ st.connectors) :
    ∃ st', garbageCollector r st cid cutoff now =
      .ok (st', (gcCandidates st cid cutoff).length) := by
  obtain ⟨st', hfold, -⟩ := gcFold_ok r cid (getFoldersToSync st cid) now
    (gcCandidates st cid cutoff) st
    (fun f hf => (gcCandidates_spec hf).2.1) hc
  refine ⟨st', ?_⟩
  rw [garbageCollector, if_pos hc]
  simp only [hfold]

def rowC6 : GoogleDriveFiles :=
  { connectorId := 1, dustFileId := "gdrive-doc1", driveFileId := "doc1",
    name := "Doc 1", mimeType := "application/vnd.google-apps.document",
    parentId := some "F1", lastSeenTs := some 5 }

def stC6 : St :=
  { connectors := [1], failedConnectors := [], pdfEnabled := false,
    files := [rowC6], folders := [(1, "F1")], syncTokens := [], webhooks := [],
    ds := { docs := ["gdrive-doc1"], sheets := [] } }

def rC6 : Remote :=
  { objects := [{ id := "doc1", name := "Doc 1",
                  mimeType := "application/vnd.google-apps.document",
                  parent := some "F1", trashed := false, createdTime := "t" },
                { id := "F1", name := "F1", mimeType := folderMime,
                  parent := none, trashed := false, createdTime := "t" }],
    listPages := [], changePages := [], startPageTokens := [], ensureResults := [] }

theorem garbageCollector_returns_candidate_count_witness :
    ∃ st', garbageCollector rC6 stC6 1 10 20 =
      .ok (st', (gcCandidates stC6 1 10).length) :=
  garbageCollector_returns_candidate_count rC6 stC6 1 10 20 (by decide)

/-- C6 counterexample: a call that examines one stale candidate which is
still present remotely and in scope refreshes it — deleting nothing — and
yet returns 1, so the return value is the number of candidates examined,
not the number reclaimed. -/
theorem garbageCollector_count_not_reclaimed_counterexample :
    garbageCollector rC6 stC6 1 10 20 =
      .ok ({ stC6 with files := [{ rowC6 with lastSeenTs := some 20 }] }, 1) ∧
    ({ stC6 with files := [{ rowC6 with lastSeenTs := some 20 }] } : St).files.length =
      stC6.files.length :=
  ⟨by rfl, by rfl⟩

/-! ## C2 — cursor persisted only after the page is consumed -/

theorem deleteFile_syncTokens {st : St} {row : GoogleDriveFiles} {st' : St}
    (h : deleteFile st row = .ok st') : st'.syncTokens = st.syncTokens := by
  rw [deleteFile] at h
  split at h
  · injection h with h; subst h; rfl
  · cases h

theorem deleteOneFile_syncTokens {st : St} {cid : Nat}
    {file : GoogleDriveObjectType} {st' : St}
    (h : deleteOneFile st cid file = .ok st') : st'.syncTokens = st.syncTokens := by
  rw [deleteOneFile] at h
  split at h
  · injection h with h; subst h; rfl
  · exact deleteFile_syncTokens h

theorem processChange_syncTokens {r : Remote} {cid : Nat} {sel mimes : List String}
    {now : Nat} {st : St} {c : Change} {st' : St}
    (h : processChange r cid sel mimes now st c = .ok st') :
    st'.syncTokens = st.syncTokens := by
  rw [processChange] at h
  simp only [] at h
  repeat' split at h
  all_goals first
    | (injection h with h; subst h; rfl)
    | cases h
    | exact deleteOneFile_syncTokens h

/-- The applied-markers of entries `i, i+1, ..., i+n-1`, in delivery order. -/
def appliedList : Nat → Nat → List SyncEffect
  | _, 0 => []
  | i, n + 1 => .applied i :: appliedList (i + 1) n

theorem mem_appliedList : ∀ (n i j : Nat), i ≤ j → j < i + n →
    SyncEffect.applied j ∈ appliedList i n := by
  intro n
  induction n with
  | zero => intro i j h1 h2; omega
  | succ m ih =>
    intro i j h1 h2
    rw [appliedList]
    rcases Nat.eq_or_lt_of_le h1 with heq | hlt
    · subst heq; exact List.mem_cons_self _ _
    · exact List.mem_cons_of_mem _ (ih (i + 1) j hlt (by omega))

theorem processChanges_spec (r : Remote) (cid : Nat) (sel mimes : List String)
    (now : Nat) : ∀ (cs : List Change) (i : Nat) (st : St),
    ((processChanges r cid sel mimes now cs i st).2.1.syncTokens = st.syncTokens) ∧
    ((processChanges r cid sel mimes now cs i st).1 = none →
      (processChanges r cid sel mimes now cs i st).2.2 = appliedList i cs.length) ∧
    (∀ t, SyncEffect.persistedToken t ∉ (processChanges r cid sel mimes now cs i st).2.2) := by
  intro cs
  induction cs with
  | nil =>
    intro i st
    refine ⟨rfl, fun _ => rfl, fun t h => ?_⟩
    simp [processChanges] at h
  | cons c cs ih =>
    intro i st
    cases hpc : processChange r cid sel mimes now st c with
    | error e =>
      have heq : processChanges r cid sel mimes now (c :: cs) i st = (some e, st, []) := by
        rw [processChanges, hpc]
      rw [heq]
      refine ⟨rfl, ?_, ?_⟩
      · intro hcon
        simp at hcon
      · intro t h
        simp at h
    | ok st1 =>
      have heq : processChanges r cid sel mimes now (c :: cs) i st =
          ((processChanges r cid sel mimes now cs (i + 1) st1).1,
           (processChanges r cid sel mimes now cs (i + 1) st1).2.1,
           .applied i :: (processChanges r cid sel mimes now cs (i + 1) st1).2.2) := by
        rw [processChanges, hpc]
      obtain ⟨ih1, ih2, ih3⟩ := ih (i + 1) st1
      rw [heq]
      refine ⟨?_, ?_, ?_⟩
      · rw [ih1]
        exact processChange_syncTokens hpc
      · intro hnone
        rw [List.length_cons, appliedList, ih2 hnone]
      · intro t h
        rcases List.mem_cons.mp h with hx | hx
        · cases hx
        · exact ih3 t hx

/-- Persisted-cursor lookup for `(connectorId, driveId)`. -/
def findSyncToken (toks : List GoogleDriveSyncToken) (cid : Nat) (d : String) :
    Option String :=
  (toks.find? (fun t => t.connectorId == cid && t.driveId == d)).map
    (fun t => t.syncToken)

theorem find_map_replace (toks : List GoogleDriveSyncToken)
    (row : GoogleDriveSyncToken)
    (hany : toks.any (fun t =>
      t.connectorId == row.connectorId && t.driveId == row.driveId) = true) :
    (toks.map (fun t =>
        if t.connectorId == row.connectorId && t.driveId == row.driveId then row
        else t)).find?
      (fun t => t.connectorId == row.connectorId && t.driveId == row.driveId) =
      some row := by
  induction toks with
  | nil => simp at hany
  | cons t ts ih =>
    rw [List.map_cons]
    cases hp : (t.connectorId == row.connectorId && t.driveId == row.driveId) with
    | true =>
      rw [if_pos (by simp [hp])]
      rw [List.find?_cons_of_pos _ (by simp)]
    | false =>
      rw [if_neg (by simp [hp])]
      rw [List.find?_cons_of_neg _ (by simp [hp])]
      apply ih
      rw [List.any_cons, hp] at hany
      simpa using hany

theorem find_append_single (toks : List GoogleDriveSyncToken)
    (row : GoogleDriveSyncToken)
    (hany : toks.any (fun t =>
      t.connectorId == row.connectorId && t.driveId == row.driveId) = false) :
    (toks ++ [row]).find?
      (fun t => t.connectorId == row.connectorId && t.driveId == row.driveId) =
      some row := by
  induction toks with
  | nil =>
    rw [List.nil_append]
    rw [List.find?_cons_of_pos _ (by simp)]
  | cons t ts ih =>
    rw [List.any_cons] at hany
    rcases Bool.or_eq_false_iff.mp hany with ⟨h1, h2⟩
    rw [List.cons_append, List.find?_cons_of_neg _ (by simp [h1])]
    exact ih h2

theorem findSyncToken_upsert (toks : List GoogleDriveSyncToken)
    (row : GoogleDriveSyncToken) :
    findSyncToken (upsertSyncToken toks row) row.connectorId row.driveId =
      some row.syncToken := by
  rw [findSyncToken, upsertSyncToken]
  split
  · rename_i hany
    rw [find_map_replace toks row hany]
    rfl
  · rename_i hany
    rw [find_append_single toks row (by simpa using hany)]
    rfl

/-- C2: for a change-feed page read by `incrementalSync`, the persisted
`SyncCursor` for `(connectorId, driveId)` is updated to the page's new
start token only after every entry of the page has been applied: on
success the effect trace is the applied markers of all entries, in
delivery order, followed (only then) by the cursor persist; on an aborted
page no cursor persist ever happens and the persisted cursor is unchanged,
so a crash causes reprocessing, never skipping. -/
theorem incrementalSync_cursor_persistence (r : Remote) (st : St) (cid : Nat)
    (driveId : String) (now : Nat) (tok : String) (page : ChangePage)
    (hc : cid ∈ st.connectors)
    (hpage : lookupChangePage r driveId tok = .ok page) :
    (∀ res st1 tr,
      incrementalSyncBody r st cid driveId now (some tok) = (.ok res, st1, tr) →
      res = page.nextPageToken ∧
      tr = appliedList 0 page.changes.length ++
        (match page.newStartPageToken with
         | some t => [SyncEffect.persistedToken t]
         | none => []) ∧
      (∀ j, j < page.changes.length →
        SyncEffect.applied j ∈ appliedList 0 page.changes.length) ∧
      (∀ t, page.newStartPageToken = some t →
        findSyncToken st1.syncTokens cid driveId = some t) ∧
      (page.newStartPageToken = none → st1.syncTokens = st.syncTokens)) ∧
    (∀ e st1 tr,
      incrementalSyncBody r st cid driveId now (some tok) = (.error e, st1, tr) →
      (∀ t, SyncEffect.persistedToken t ∉ tr) ∧
      st1.syncTokens = st.syncTokens) := by
  rcases hP : processChanges r cid (getFoldersToSync st cid)
      (getMimeTypesToSync st.pdfEnabled) now page.changes 0 st with ⟨err, st1', tr'⟩
  have spec := processChanges_spec r cid (getFoldersToSync st cid)
      (getMimeTypesToSync st.pdfEnabled) now page.changes 0 st
  rw [hP] at spec
  have hTok : st1'.syncTokens = st.syncTokens := spec.1
  have hTrace : err = none → tr' = appliedList 0 page.changes.length := spec.2.1
  have hNoPersist : ∀ t, SyncEffect.persistedToken t ∉ tr' := spec.2.2
  cases err with
  | some e0 =>
    have hbody0 : incrementalSyncBody r st cid driveId now (some tok) =
        (Except.error e0, st1', tr') := by
      simp only [incrementalSyncBody, if_pos hc, hpage, hP]
    constructor
    · intro res st1 tr h
      rw [hbody0] at h
      simp only [Prod.mk.injEq] at h
      cases h.1
    · intro e st1 tr h
      rw [hbody0] at h
      simp only [Prod.mk.injEq] at h
      obtain ⟨-, hst, htr⟩ := h
      subst hst; subst htr
      exact ⟨hNoPersist, hTok⟩
  | none =>
    cases hnew : page.newStartPageToken with
    | some t0 =>
      have hbody0 : incrementalSyncBody r st cid driveId now (some tok) =
          (Except.ok page.nextPageToken,
           { st1' with
              syncTokens := (upsertSyncToken st1'.syncTokens ⟨cid, driveId, t0⟩) },
           tr' ++ [SyncEffect.persistedToken t0]) := by
        simp only [incrementalSyncBody, if_pos hc, hpage, hP, hnew]
      constructor
      · intro res st1 tr h
        rw [hbody0] at h
        simp only [Prod.mk.injEq, Except.ok.injEq] at h
        obtain ⟨hres, hst, htr⟩ := h
        subst hres; subst hst; subst htr
        refine ⟨rfl, ?_, ?_, ?_, ?_⟩
        · rw [hTrace rfl]
        · intro j hj
          exact mem_appliedList _ 0 j (Nat.zero_le j) (by omega)
        · intro t ht
          injection ht with ht
          subst ht
          exact findSyncToken_upsert st1'.syncTokens ⟨cid, driveId, t0⟩
        · intro hcon
          cases hcon
      · intro e st1 tr h
        rw [hbody0] at h
        simp only [Prod.mk.injEq] at h
        cases h.1
    | none =>
      have hbody0 : incrementalSyncBody r st cid driveId now (some tok) =
          (Except.ok page.nextPageToken, st1', tr') := by
        simp only [incrementalSyncBody, if_pos hc, hpage, hP, hnew]
      constructor
      · intro res st1 tr h
        rw [hbody0] at h
        simp only [Prod.mk.injEq, Except.ok.injEq] at h
        obtain ⟨hres, hst, htr⟩ := h
        subst hres; subst hst; subst htr
        refine ⟨rfl, ?_, ?_, ?_, ?_⟩
        · rw [hTrace rfl]
          simp
        · intro j hj
          exact mem_appliedList _ 0 j (Nat.zero_le j) (by omega)
        · intro t ht
          cases ht
        · intro _
          exact hTok
      · intro e st1 tr h
        rw [hbody0] at h
        simp only [Prod.mk.injEq] at h
        cases h.1

def pageC2 : ChangePage :=
  { changes := [], nextPageToken := none, newStartPageToken := some "T2" }

def rC2 : Remote :=
  { objects := [], listPages := [], changePages := [("d", "t0", .ok pageC2)],
    startPageTokens := [], ensureResults := [] }

theorem incrementalSync_cursor_persistence_witness :
    findSyncToken ({ stC7 with syncTokens :=
      [{ connectorId := 1, driveId := "d", syncToken := "T2" }] } : St).syncTokens
      1 "d" = some "T2" :=
  ((incrementalSync_cursor_persistence rC2 stC7 1 "d" 9 "t0" pageC2
      (by decide) (by rfl)).1
    none
    { stC7 with syncTokens := [{ connectorId := 1, driveId := "d", syncToken := "T2" }] }
    [SyncEffect.persistedToken "T2"] (by rfl)).2.2.2.1 "T2" (by rfl)

/-! ## C3 — out-of-scope / trashed entries delete the local mirror -/

def rowC3 : GoogleDriveFiles :=
  { connectorId := 1, dustFileId := "gdrive-doc1", driveFileId := "doc1",
    name := "Doc 1", mimeType := "application/vnd.google-apps.document",
    parentId := some "F1", lastSeenTs := some 5 }

def stC3 : St :=
  { connectors := [1], failedConnectors := [], pdfEnabled := false,
    files := [rowC3], folders := [(1, "F1")],
    syncTokens := [{ connectorId := 1, driveId := "d", syncToken := "tok" }],
    webhooks := [], ds := { docs := ["gdrive-doc1"], sheets := [] } }

def fC3 : RawFile :=
  { id := some "doc1", name := some "Doc 1",
    mimeType := some "application/vnd.google-apps.document",
    parent := some "F1", trashed := true, createdTime := some "t" }

def rC3 : Remote :=
  { objects := [], listPages := [],
    changePages := [("d", "tok", .ok
      { changes := [{ changeType := "file", file := some fC3 }],
        nextPageToken := none, newStartPageToken := some "tok2" })],
    startPageTokens := [], ensureResults := [] }

/-- C3: an entry processed by `incrementalSync` (passing the changeType,
MIME-type and id filters) whose file is out of the watched scope or
trashed deletes the local mirror row and its downstream content when one
exists and is a no-op otherwise; in particular, in the end-to-end scenario
where the change feed marks the previously mirrored `doc1` as trashed,
`doc1` disappears from the mirror store and from the downstream index and
the cursor advances past the entry. -/
theorem incrementalSync_out_of_scope_delete :
    (∀ (r : Remote) (cid : Nat) (selected mimes : List String) (now : Nat)
       (st : St) (c : Change) (f : RawFile),
      cid ∈ st.connectors →
      c.changeType = "file" → c.file = some f →
      falsyS f.mimeType = false → mimes.contains (f.mimeType.getD "") = true →
      falsyS f.id = false →
      (objectIsInFolders r (driveObjectToDustType f) selected = false ∨
        f.trashed = true) →
      ∃ st', processChange r cid selected mimes now st c = .ok st' ∧
        findFile st'.files cid (f.id.getD "") = none ∧
        (findFile st.files cid (f.id.getD "") = none → st' = st) ∧
        (∀ row, findFile st.files cid (f.id.getD "") = some row →
          isGoogleDriveSpreadSheetFile row = false → row.mimeType ≠ folderMime →
          row.dustFileId ∉ st'.ds.docs)) ∧
    ((incrementalSync rC3 stC3 1 "d" 50 none).1 = .ok none ∧
     findFile (incrementalSync rC3 stC3 1 "d" 50 none).2.1.files 1 "doc1" = none ∧
     "gdrive-doc1" ∉ (incrementalSync rC3 stC3 1 "d" 50 none).2.1.ds.docs ∧
     findSyncToken (incrementalSync rC3 stC3 1 "d" 50 none).2.1.syncTokens 1 "d" =
       some "tok2") := by
  constructor
  · intro r cid selected mimes now st c f hc hct hfile hmime hmem hid hout
    have hmem' : f.mimeType.getD "" ∈ mimes := by simpa using hmem
    have hsc : (!objectIsInFolders r (driveObjectToDustType f) selected ||
        f.trashed) = true := by
      rcases hout with h | h <;> simp [h]
    have hproj : (driveObjectToDustType f).id = f.id.getD "" := rfl
    cases hrow : findFile st.files cid (f.id.getD "") with
    | none =>
      refine ⟨st, ?_, hrow, fun _ => rfl, ?_⟩
      · rw [processChange]
        simp [hct, hfile, hmime, hmem', hid, hsc, hrow]
      · intro row hx
        exact absurd hx (by simp)
    | some row =>
      obtain ⟨-, hrc, hrf⟩ := findFile_key hrow
      have hcr : row.connectorId ∈ st.connectors := by rw [hrc]; exact hc
      refine ⟨deleteFileT st row, ?_, ?_, ?_, ?_⟩
      · rw [processChange]
        simp [hct, hfile, hmime, hmem', hid, hsc, hproj, hrow, deleteOneFile,
          deleteFile, hcr]
      · have h0 := findFile_filter_self st.files (rowKey row)
        rw [show (rowKey row).1 = cid from hrc,
          show (rowKey row).2 = f.id.getD "" from hrf] at h0
        exact h0
      · intro hx
        exact absurd hx (by simp)
      · intro row' hx hsp hfold
        injection hx with hx
        subst hx
        have hdocs : (deleteFileT st row).ds.docs =
            st.ds.docs.filter (fun d => d ≠ row.dustFileId) := by
          simp [deleteFileT, hsp, hfold, deleteFromDataSource]
        rw [hdocs]
        exact not_mem_filter_ne_self _ _
  · exact ⟨by rfl, by rfl, by decide, by rfl⟩

theorem incrementalSync_out_of_scope_delete_witness :
    ∃ st', processChange rC3 1 ["F1"] (getMimeTypesToSync false) 50 stC3
        { changeType := "file", file := some fC3 } = .ok st' ∧
      findFile st'.files 1 (fC3.id.getD "") = none ∧
      (findFile stC3.files 1 (fC3.id.getD "") = none → st' = stC3) ∧
      (∀ row, findFile stC3.files 1 (fC3.id.getD "") = some row →
        isGoogleDriveSpreadSheetFile row = false → row.mimeType ≠ folderMime →
        row.dustFileId ∉ st'.ds.docs) :=
  incrementalSync_out_of_scope_delete.1 rC3 1 ["F1"] (getMimeTypesToSync false) 50
    stC3 { changeType := "file", file := some fC3 } fC3 (by decide) (by rfl)
    (by rfl) (by rfl) (by rfl) (by rfl) (Or.inr (by rfl))

/-! ## C4 — garbage collection reconciles the mirror against the remote -/

theorem getGoogleDriveObject_id {r : Remote} {x : String}
    {o : GoogleDriveObjectType} (h : getGoogleDriveObject r x = some o) :
    o.id = x := by
  have := List.find?_some h
  simpa using this

theorem gcStep_cases (r : Remote) (cid : Nat) (sel : List String) (now : Nat)
    (st : St) (file : GoogleDriveFiles)
    (hfc : file.connectorId = cid) (hc : cid ∈ st.connectors) :
    ∃ st', gcStep r cid sel now st file = .ok st' ∧
      st'.connectors = st.connectors ∧
      (∀ k : Nat × String, k ≠ rowKey file →
        findFile st'.files k.1 k.2 = findFile st.files k.1 k.2) ∧
      (getGoogleDriveObject r file.driveFileId = none →
        findFile st'.files cid file.driveFileId = none) ∧
      (∀ o, getGoogleDriveObject r file.driveFileId = some o →
        (!objectIsInFolders r o sel || o.trashed) = true →
        findFile st'.files cid file.driveFileId = none) ∧
      (∀ o, getGoogleDriveObject r file.driveFileId = some o →
        (!objectIsInFolders r o sel || o.trashed) = false →
        findFile st'.files cid file.driveFileId =
          (findFile st.files cid file.driveFileId).map
            (fun g => { g with lastSeenTs := some now })) := by
  have hkey : rowKey file = (cid, file.driveFileId) := by rw [rowKey, hfc]
  cases hobj : getGoogleDriveObject r file.driveFileId with
  | none =>
    have heq : gcStep r cid sel now st file = .ok (deleteFileT st file) := by
      simp only [gcStep, hobj]
      rw [deleteFile, if_pos (by rw [hfc]; exact hc)]
    refine ⟨deleteFileT st file, heq, rfl, ?_, ?_, ?_, ?_⟩
    · intro k hk
      exact findFile_filter_frame st.files (rowKey file) k.1 k.2
        (by rw [Prod.mk.eta]; exact hk)
    · intro _
      have h0 := findFile_filter_self st.files (rowKey file)
      rw [show (rowKey file).1 = cid from hfc] at h0
      exact h0
    · intro o' ho' _
      cases ho'
    · intro o' ho' _
      cases ho'
  | some o =>
    have ho : o.id = file.driveFileId := getGoogleDriveObject_id hobj
    by_cases hbr : (!objectIsInFolders r o sel || o.trashed) = true
    · have heq : gcStep r cid sel now st file = deleteOneFile st cid o := by
        simp [gcStep, hobj, hbr]
      cases hrow : findFile st.files cid o.id with
      | none =>
        have heq2 : gcStep r cid sel now st file = .ok st := by
          rw [heq]; simp [deleteOneFile, hrow]
        refine ⟨st, heq2, rfl, fun k _ => rfl, ?_, ?_, ?_⟩
        · intro hcon; cases hcon
        · intro o' ho' _
          injection ho' with ho'
          subst ho'
          rw [← ho]
          exact hrow
        · intro o' ho' hbr'
          injection ho' with ho'
          subst ho'
          rw [hbr'] at hbr
          cases hbr
      | some row =>
        obtain ⟨hrmem, hrc, hrf⟩ := findFile_key hrow
        have hrr : rowKey row = rowKey file := by
          rw [rowKey, hrc, hrf, ho, hkey]
        have heq2 : gcStep r cid sel now st file = .ok (deleteFileT st row) := by
          rw [heq]; simp only [deleteOneFile, hrow]
          rw [deleteFile, if_pos (by rw [hrc]; exact hc)]
        refine ⟨deleteFileT st row, heq2, rfl, ?_, ?_, ?_, ?_⟩
        · intro k hk
          exact findFile_filter_frame st.files (rowKey row) k.1 k.2
            (by rw [Prod.mk.eta, hrr]; exact hk)
        · intro hcon; cases hcon
        · intro o' ho' _
          have h0 := findFile_filter_self st.files (rowKey row)
          rw [show (rowKey row).1 = cid from hrc,
            show (rowKey row).2 = file.driveFileId from hrf.trans ho] at h0
          exact h0
        · intro o' ho' hbr'
          injection ho' with ho'
          subst ho'
          rw [hbr'] at hbr
          cases hbr
    · have heq : gcStep r cid sel now st file =
          .ok { st with files := st.files.map (fun g =>
            if rowKey g == rowKey file then { g with lastSeenTs := some now }
            else g) } := by
        simp [gcStep, hobj, hbr]
      refine ⟨_, heq, rfl, ?_, ?_, ?_, ?_⟩
      · intro k hk
        exact findFile_map_refresh_frame st.files (rowKey file) now k.1 k.2
          (by rw [Prod.mk.eta]; exact hk)
      · intro hcon; cases hcon
      · intro o' ho' hbr'
        injection ho' with ho'
        subst ho'
        exact absurd hbr' hbr
      · intro o' ho' _
        have h0 := findFile_map_refresh_self st.files (rowKey file) now
        rw [show (rowKey file).1 = cid from hfc] at h0
        exact h0

theorem gcFold_frame (r : Remote) (cid : Nat) (sel : List String) (now : Nat) :
    ∀ (l : List GoogleDriveFiles) (st : St) (k : Nat × String),
      (∀ g ∈ l, g.connectorId = cid) → cid ∈ st.connectors →
      (∀ g ∈ l, rowKey g ≠ k) →
      ∀ st', l.foldlM (gcStep r cid sel now) st = .ok st' →
        findFile st'.files k.1 k.2 = findFile st.files k.1 k.2 := by
  intro l
  induction l with
  | nil =>
    intro st k _ _ _ st' hfold
    rw [List.foldlM_nil] at hfold
    injection hfold with h
    subst h
    rfl
  | cons g gs ih =>
    intro st k hall hc hkk st' hfold
    obtain ⟨st1, hstep, hconn1, hframe, -, -, -⟩ :=
      gcStep_cases r cid sel now st g (hall g (by simp)) hc
    rw [List.foldlM_cons, hstep] at hfold
    have hfold' : gs.foldlM (gcStep r cid sel now) st1 = .ok st' := hfold
    have h2 := ih st1 k (fun x hx => hall x (by simp [hx]))
      (by rw [hconn1]; exact hc) (fun x hx => hkk x (by simp [hx])) st' hfold'
    rw [h2]
    exact hframe k (Ne.symm (hkk g (by simp)))

theorem gc_candidate_final (r : Remote) (cid : Nat) (sel : List String)
    (now : Nat) (L : List GoogleDriveFiles) (st st' : St)
    (hall : ∀ g ∈ L, g.connectorId = cid) (hc : cid ∈ st.connectors)
    (hndL : (L.map rowKey).Nodup)
    (hfold : L.foldlM (gcStep r cid sel now) st = .ok st')
    (f : GoogleDriveFiles) (hf : f ∈ L) :
    (getGoogleDriveObject r f.driveFileId = none →
      findFile st'.files cid f.driveFileId = none) ∧
    (∀ o, getGoogleDriveObject r f.driveFileId = some o →
      (!objectIsInFolders r o sel || o.trashed) = true →
      findFile st'.files cid f.driveFileId = none) ∧
    (∀ o, getGoogleDriveObject r f.driveFileId = some o →
      (!objectIsInFolders r o sel || o.trashed) = false →
      findFile st'.files cid f.driveFileId =
        (findFile st.files cid f.driveFileId).map
          (fun g => { g with lastSeenTs := some now })) := by
  obtain ⟨l1, l2, hL⟩ := List.append_of_mem hf
  subst hL
  have hfmem : f ∈ l1 ++ f :: l2 := by simp
  have hkf : rowKey f = (cid, f.driveFileId) := by
    rw [rowKey, hall f hfmem]
  have hnm : (rowKey f :: (l1.map rowKey ++ l2.map rowKey)).Nodup := by
    apply List.nodup_middle.mp
    rwa [List.map_append, List.map_cons] at hndL
  rw [List.nodup_cons] at hnm
  have hnotin := hnm.1
  have hall1 : ∀ g ∈ l1, g.connectorId = cid :=
    fun g hg => hall g (by simp [hg])
  have hall2 : ∀ g ∈ l2, g.connectorId = cid :=
    fun g hg => hall g (by simp [hg])
  obtain ⟨st1, h1, hco1⟩ := gcFold_ok r cid sel now l1 st hall1 hc
  obtain ⟨st2, hstep, hco2, hframe2, habs, hdel, href⟩ :=
    gcStep_cases r cid sel now st1 f (hall f hfmem) (by rw [hco1]; exact hc)
  have hfold2 : l2.foldlM (gcStep r cid sel now) st2 = .ok st' := by
    rw [List.foldlM_append, h1] at hfold
    have hfold' : (f :: l2).foldlM (gcStep r cid sel now) st1 = .ok st' := hfold
    rw [List.foldlM_cons, hstep] at hfold'
    exact hfold'
  have hk2 : ∀ g ∈ l2, rowKey g ≠ (cid, f.driveFileId) := by
    intro g hg hcon
    apply hnotin
    rw [← hkf] at hcon
    rw [← hcon]
    exact List.mem_append_right _ (List.mem_map_of_mem rowKey hg)
  have hfr2 := gcFold_frame r cid sel now l2 st2 (cid, f.driveFileId) hall2
    (by rw [hco2, hco1]; exact hc) hk2 st' hfold2
  have hk1 : ∀ g ∈ l1, rowKey g ≠ (cid, f.driveFileId) := by
    intro g hg hcon
    apply hnotin
    rw [← hkf] at hcon
    rw [← hcon]
    exact List.mem_append_left _ (List.mem_map_of_mem rowKey hg)
  have hfr1 := gcFold_frame r cid sel now l1 st (cid, f.driveFileId) hall1 hc
    hk1 st1 h1
  refine ⟨?_, ?_, ?_⟩
  · intro hobj
    rw [hfr2]
    exact habs hobj
  · intro o hobj hbr
    rw [hfr2]
    exact hdel o hobj hbr
  · intro o hobj hbr
    rw [hfr2, href o hobj hbr, hfr1]

/-- C4: `garbageCollector(connectorId, cutoffTs)` examines exactly the
page of mirror rows of the connector whose `lastSeenTs` is strictly before
the cutoff or never set (every other row is untouched); a candidate absent
remotely is deleted; a candidate present remotely but trashed or out of
the watched scope is deleted; a candidate present, in scope and not
trashed is kept with its `lastSeenTs` advanced to now. -/
theorem garbageCollector_reconciliation (r : Remote) (st : St) (cid : Nat)
    (cutoff now : Nat)
    (hc : cid ∈ st.connectors)
    (hnd : (st.files.map rowKey).Nodup) :
    ∃ st', garbageCollector r st cid cutoff now =
        .ok (st', (gcCandidates st cid cutoff).length) ∧
      (∀ f ∈ gcCandidates st cid cutoff,
        f ∈ st.files ∧ f.connectorId = cid ∧ staleBefore f cutoff = true) ∧
      (∀ g ∈ st.files,
        (∀ f ∈ gcCandidates st cid cutoff, rowKey g ≠ rowKey f) →
        findFile st'.files g.connectorId g.driveFileId = some g) ∧
      (∀ f ∈ gcCandidates st cid cutoff,
        getGoogleDriveObject r f.driveFileId = none →
        findFile st'.files cid f.driveFileId = none) ∧
      (∀ f ∈ gcCandidates st cid cutoff, ∀ o,
        getGoogleDriveObject r f.driveFileId = some o →
        (objectIsInFolders r o (getFoldersToSync st cid) = false ∨
          o.trashed = true) →
        findFile st'.files cid f.driveFileId = none) ∧
      (∀ f ∈ gcCandidates st cid cutoff, ∀ o,
        getGoogleDriveObject r f.driveFileId = some o →
        objectIsInFolders r o (getFoldersToSync st cid) = true →
        o.trashed = false →
        findFile st'.files cid f.driveFileId =
          some { f with lastSeenTs := some now }) := by
  have hall : ∀ g ∈ gcCandidates st cid cutoff, g.connectorId = cid :=
    fun g hg => (gcCandidates_spec hg).2.1
  have hsub : List.Sublist (gcCandidates st cid cutoff) st.files :=
    (List.take_sublist _ _).trans (List.filter_sublist _)
  have hndL : ((gcCandidates st cid cutoff).map rowKey).Nodup :=
    List.Nodup.sublist (hsub.map rowKey) hnd
  obtain ⟨st', hfold, hconn⟩ := gcFold_ok r cid (getFoldersToSync st cid) now
    (gcCandidates st cid cutoff) st hall hc
  refine ⟨st', ?_, fun f hf => gcCandidates_spec hf, ?_, ?_, ?_, ?_⟩
  · rw [garbageCollector, if_pos hc]
    simp only [hfold]
  · intro g hg hdiff
    have hk : ∀ f ∈ gcCandidates st cid cutoff, rowKey f ≠ rowKey g :=
      fun f hf => Ne.symm (hdiff f hf)
    have := gcFold_frame r cid (getFoldersToSync st cid) now
      (gcCandidates st cid cutoff) st (rowKey g) hall hc hk st' hfold
    rw [show (rowKey g).1 = g.connectorId from rfl,
      show (rowKey g).2 = g.driveFileId from rfl] at this
    rw [this]
    exact findFile_of_mem_nodup hg hnd
  · intro f hf hobj
    exact (gc_candidate_final r cid (getFoldersToSync st cid) now
      (gcCandidates st cid cutoff) st st' hall hc hndL hfold f hf).1 hobj
  · intro f hf o hobj hcase
    have hbr : (!objectIsInFolders r o (getFoldersToSync st cid) ||
        o.trashed) = true := by
      rcases hcase with h | h <;> simp [h]
    exact (gc_candidate_final r cid (getFoldersToSync st cid) now
      (gcCandidates st cid cutoff) st st' hall hc hndL hfold f hf).2.1 o hobj hbr
  · intro f hf o hobj hin htr
    have hbr : (!objectIsInFolders r o (getFoldersToSync st cid) ||
        o.trashed) = false := by
      simp [hin, htr]
    have href := (gc_candidate_final r cid (getFoldersToSync st cid) now
      (gcCandidates st cid cutoff) st st' hall hc hndL hfold f hf).2.2 o hobj hbr
    have hself : findFile st.files cid f.driveFileId = some f := by
      have := findFile_of_mem_nodup ((gcCandidates_spec hf).1) hnd
      rwa [(gcCandidates_spec hf).2.1] at this
    rw [href, hself]
    rfl

theorem garbageCollector_reconciliation_witness :
    ∃ st', garbageCollector rC6 stC6 1 10 20 =
        .ok (st', (gcCandidates stC6 1 10).length) ∧
      (∀ f ∈ gcCandidates stC6 1 10,
        f ∈ stC6.files ∧ f.connectorId = 1 ∧ staleBefore f 10 = true) ∧
      (∀ g ∈ stC6.files,
        (∀ f ∈ gcCandidates stC6 1 10, rowKey g ≠ rowKey f) →
        findFile st'.files g.connectorId g.driveFileId = some g) ∧
      (∀ f ∈ gcCandidates stC6 1 10,
        getGoogleDriveObject rC6 f.driveFileId = none →
        findFile st'.files 1 f.driveFileId = none) ∧
      (∀ f ∈ gcCandidates stC6 1 10, ∀ o,
        getGoogleDriveObject rC6 f.driveFileId = some o →
        (objectIsInFolders rC6 o (getFoldersToSync stC6 1) = false ∨
          o.trashed = true) →
        findFile st'.files 1 f.driveFileId = none) ∧
      (∀ f ∈ gcCandidates stC6 1 10, ∀ o,
        getGoogleDriveObject rC6 f.driveFileId = some o →
        objectIsInFolders rC6 o (getFoldersToSync stC6 1) = true →
        o.trashed = false →
        findFile st'.files 1 f.driveFileId =
          some { f with lastSeenTs := some 20 }) :=
  garbageCollector_reconciliation rC6 stC6 1 10 20 (by decide) (by decide)

/-! ## C5 — webhook renewal pass -/

/-- The webhook a renewal event is about. -/
def renewEventId : RenewEvent → Nat
  | .processed i => i
  | .destroyed i => i
  | .renewed i _ => i
  | .deferred i => i

/-- Projection selecting the `processed` events. -/
def processedId : RenewEvent → Option Nat
  | .processed i => some i
  | _ => none

/-- The non-superseded (forward pointer null) subscriptions of one drive. -/
def nonSupersededFor (st : St) (d : String) : List GoogleDriveWebhook :=
  st.webhooks.filter (fun w => w.driveId == d && w.renewedByWebhookId == none)

/-- The active (non-superseded, non-expired) subscriptions of one drive. -/
def activeFor (now : Nat) (st : St) (d : String) : List GoogleDriveWebhook :=
  st.webhooks.filter (fun w =>
    w.driveId == d && w.renewedByWebhookId == none && decide (now < w.expiresAt))

theorem le_foldr_max (xs : List Nat) : ∀ x ∈ xs, x ≤ xs.foldr max 0 := by
  induction xs with
  | nil => intro x hx; cases hx
  | cons a l ih =>
    intro x hx
    rw [List.foldr_cons]
    rcases List.mem_cons.mp hx with h | h
    · subst h; exact Nat.le_max_left _ _
    · exact le_trans (ih x h) (Nat.le_max_right _ _)

theorem freshWebhookRowId_not_mem (l : List GoogleDriveWebhook) :
    freshWebhookRowId l ∉ l.map (fun w => w.id) := by
  intro h
  have h2 := le_foldr_max (l.map (fun w => w.id)) (freshWebhookRowId l) h
  rw [freshWebhookRowId] at h2
  omega

theorem filter_length_le_of_imp {α : Type} (p q : α → Bool) (l : List α)
    (himp : ∀ x, q x = true → p x = true) :
    (l.filter q).length ≤ (l.filter p).length := by
  induction l with
  | nil => simp
  | cons a l ih =>
    rw [List.filter_cons, List.filter_cons]
    cases hq : q a with
    | true =>
      rw [himp a hq]
      simpa using Nat.succ_le_succ ih
    | false =>
      cases hp : p a with
      | true =>
        simp only [if_true, List.length_cons]
        exact le_trans ih (Nat.le_succ _)
      | false =>
        simpa using ih

theorem filter_false_length {α : Type} (p : α → Bool) (l : List α)
    (h : ∀ x ∈ l, p x = false) : (l.filter p).length = 0 := by
  induction l with
  | nil => rfl
  | cons a l ih =>
    rw [List.filter_cons, h a (by simp)]
    exact ih (fun x hx => h x (by simp [hx]))

theorem filter_pos_length {α : Type} (p : α → Bool) (l : List α) (x : α)
    (hx : x ∈ l) (hp : p x = true) : 1 ≤ (l.filter p).length := by
  have hmem : x ∈ l.filter p := List.mem_filter.mpr ⟨hx, hp⟩
  exact List.length_pos.mpr (List.ne_nil_of_mem hmem)

theorem filter_length_map_eq {φ : GoogleDriveWebhook → GoogleDriveWebhook}
    {p : GoogleDriveWebhook → Bool} (l : List GoogleDriveWebhook)
    (hp : ∀ x ∈ l, p (φ x) = p x) :
    ((l.map φ).filter p).length = (l.filter p).length := by
  induction l with
  | nil => rfl
  | cons a l ih =>
    rw [List.map_cons, List.filter_cons, List.filter_cons, hp a (by simp)]
    have ih' := ih (fun x hx => hp x (by simp [hx]))
    cases h : p a with
    | true => simp [ih']
    | false => simpa using ih'

theorem filter_length_flip {φ : GoogleDriveWebhook → GoogleDriveWebhook}
    {p : GoogleDriveWebhook → Bool} {wid : Nat} :
    ∀ (l : List GoogleDriveWebhook),
    (∀ x, x.id ≠ wid → φ x = x) →
    ((l.map φ).filter p).length +
      (l.filter (fun x => x.id == wid && p x)).length =
    (l.filter p).length +
      (l.filter (fun x => x.id == wid && p (φ x))).length := by
  intro l hother
  induction l with
  | nil => rfl
  | cons a l ih =>
    rw [List.map_cons, List.filter_cons, List.filter_cons, List.filter_cons,
      List.filter_cons]
    by_cases ha : a.id = wid
    · have hb : (a.id == wid) = true := by simp [ha]
      rw [hb]
      simp only [Bool.true_and]
      cases hpa : p a <;> cases hpφ : p (φ a) <;>
        ((try simp); all_goals omega)
    · have hb : (a.id == wid) = false := by simp [ha]
      have hφ : φ a = a := hother a ha
      rw [hb, hφ]
      simp only [Bool.false_and, Bool.false_eq_true, if_false]
      cases hpa : p a <;>
        ((try simp); all_goals omega)

theorem map_id_of_preserve (φ : GoogleDriveWebhook → GoogleDriveWebhook)
    (hφ : ∀ w, (φ w).id = w.id) (l : List GoogleDriveWebhook) :
    (l.map φ).map (fun w => w.id) = l.map (fun w => w.id) := by
  induction l with
  | nil => rfl
  | cons a l ih => simp [hφ, ih]

theorem removeLimited_sublist (p : GoogleDriveWebhook → Bool) :
    ∀ (l : List GoogleDriveWebhook) (n : Nat),
      List.Sublist (removeLimited p n l) l := by
  intro l
  induction l with
  | nil => intro n; cases n <;> simp [removeLimited]
  | cons w l ih =>
    intro n
    cases n with
    | zero => simp [removeLimited]
    | succ m =>
      rw [removeLimited]
      by_cases hp : p w
      · rw [if_pos hp]
        exact List.Sublist.cons _ (ih m)
      · rw [if_neg hp]
        exact List.Sublist.cons₂ _ (ih (m + 1))

theorem mem_removeLimited_of_not (p : GoogleDriveWebhook → Bool)
    (x : GoogleDriveWebhook) (hx : p x = false) :
    ∀ (l : List GoogleDriveWebhook) (n : Nat), x ∈ l → x ∈ removeLimited p n l := by
  intro l
  induction l with
  | nil => intro n h; cases h
  | cons w l ih =>
    intro n hmem
    cases n with
    | zero => simpa [removeLimited] using hmem
    | succ m =>
      rw [removeLimited]
      by_cases hp : p w
      · rw [if_pos hp]
        rcases List.mem_cons.mp hmem with he | ht
        · subst he; rw [hx] at hp; cases hp
        · exact ih m ht
      · rw [if_neg hp]
        rcases List.mem_cons.mp hmem with he | ht
        · subst he; exact List.mem_cons_self _ _
        · exact List.mem_cons_of_mem _ (ih (m + 1) ht)

/-- One renewal step, fully characterised: it preserves the connector
table, keeps webhook row ids unique, preserves the at-most-one
non-superseded-subscription-per-drive invariant, emits exactly one
`processed` event for the handled webhook (all its events carrying that
webhook's id), leaves every other webhook row untouched, and — when the
drive is reachable and the registration succeeds — emits exactly the
renewal event and links the retained old record to its successor. -/
theorem renewOneWebhook_spec (r : Remote) (now : Nat) (st : St)
    (wh : GoogleDriveWebhook)
    (hwh : wh ∈ st.webhooks) (hnone : wh.renewedByWebhookId = none)
    (hids : (st.webhooks.map (fun w => w.id)).Nodup)
    (hinv : ∀ d, (nonSupersededFor st d).length ≤ 1) :
    ((renewOneWebhook r now st wh).1.connectors = st.connectors) ∧
    (((renewOneWebhook r now st wh).1.webhooks.map (fun w => w.id)).Nodup) ∧
    (∀ d, (nonSupersededFor (renewOneWebhook r now st wh).1 d).length ≤ 1) ∧
    ((renewOneWebhook r now st wh).2.filterMap processedId = [wh.id]) ∧
    (∀ e ∈ (renewOneWebhook r now st wh).2, renewEventId e = wh.id) ∧
    (∀ w0 ∈ st.webhooks, w0.id ≠ wh.id →
      w0 ∈ (renewOneWebhook r now st wh).1.webhooks) ∧
    (∀ newId, wh.connectorId ∈ st.connectors →
      (getGoogleDriveObject r wh.driveId).isSome = true →
      lookupEnsure r wh.driveId = .ok (some newId) →
      (renewOneWebhook r now st wh).2 =
        [.processed wh.id, .renewed wh.id newId] ∧
      { wh with renewedByWebhookId := some newId } ∈
        (renewOneWebhook r now st wh).1.webhooks) := by
  by_cases hc : wh.connectorId ∈ st.connectors
  · cases hdr : getGoogleDriveObject r wh.driveId with
    | none =>
      have heq : renewOneWebhook r now st wh =
          ({ st with webhooks := st.webhooks.filter (fun w => w.id ≠ wh.id) },
           [.processed wh.id, .destroyed wh.id]) := by
        rw [renewOneWebhook, if_pos hc, hdr]
      rw [heq]
      refine ⟨rfl, ?_, ?_, rfl, ?_, ?_, ?_⟩
      · have hsub : List.Sublist
            ((st.webhooks.filter (fun w => w.id ≠ wh.id)).map (fun w => w.id))
            (st.webhooks.map (fun w => w.id)) :=
          (List.filter_sublist _).map _
        exact List.Nodup.sublist hsub hids
      · intro d
        rw [nonSupersededFor]
        simp only [List.filter_filter]
        refine le_trans (filter_length_le_of_imp _ _ _ ?_) (hinv d)
        intro x hx
        cases hq : x.driveId == d && x.renewedByWebhookId == none
        · simp [hq] at hx
        · rfl
      · intro e he
        rcases List.mem_cons.mp he with h | h
        · subst h; rfl
        · rcases List.mem_cons.mp h with h | h
          · subst h; rfl
          · cases h
      · intro w0 hw0 hid
        exact List.mem_filter.mpr ⟨hw0, by simp [hid]⟩
      · intro newId _ hiso _
        simp at hiso
    | some o =>
      cases hen : lookupEnsure r wh.driveId with
      | error e =>
        have hensr : ensureWebhookForDriveId r st wh.connectorId wh.driveId
            GOOGLE_DRIVE_WEBHOOK_RENEW_MARGIN_MS now = (st, .error e) := by
          simp only [ensureWebhookForDriveId, hen]
        have heq : renewOneWebhook r now st wh =
            ({ (if isAuthRevokedError e then syncFailed st wh.connectorId
                else st) with
                webhooks := (if isAuthRevokedError e then
                  syncFailed st wh.connectorId else st).webhooks.map (fun w =>
                    if w.id = wh.id then { w with renewAt := now + RENEW_RETRY_MS }
                    else w) },
             [.processed wh.id, .deferred wh.id]) := by
          rw [renewOneWebhook, if_pos hc, hdr]
          simp only [hensr]
        have hwebs : (if isAuthRevokedError e then syncFailed st wh.connectorId
            else st).webhooks = st.webhooks := by
          cases isAuthRevokedError e <;> simp [syncFailed]
        have hconn : (if isAuthRevokedError e then syncFailed st wh.connectorId
            else st).connectors = st.connectors := by
          cases isAuthRevokedError e <;> simp [syncFailed]
        rw [heq]
        refine ⟨hconn, ?_, ?_, rfl, ?_, ?_, ?_⟩
        · rw [hwebs, map_id_of_preserve _ (fun w => by
            by_cases h : w.id = wh.id <;> simp [h])]
          exact hids
        · intro d
          rw [nonSupersededFor]
          simp only [hwebs]
          rw [filter_length_map_eq st.webhooks (fun x _ => by
            by_cases h : x.id = wh.id <;> simp [h])]
          exact hinv d
        · intro ev he
          rcases List.mem_cons.mp he with h | h
          · subst h; rfl
          · rcases List.mem_cons.mp h with h | h
            · subst h; rfl
            · cases h
        · intro w0 hw0 hid
          simp only [hwebs]
          exact List.mem_map.mpr ⟨w0, hw0, by simp [hid]⟩
        · intro newId _ _ hen'
          cases hen'
      | ok oid =>
        cases oid with
        | none =>
          have hensr : ensureWebhookForDriveId r st wh.connectorId wh.driveId
              GOOGLE_DRIVE_WEBHOOK_RENEW_MARGIN_MS now = (st, .ok none) := by
            simp only [ensureWebhookForDriveId, hen]
          have heq : renewOneWebhook r now st wh = (st, [.processed wh.id]) := by
            rw [renewOneWebhook, if_pos hc, hdr]
            simp only [hensr]
          rw [heq]
          refine ⟨rfl, hids, hinv, rfl, ?_, fun w0 hw0 _ => hw0, ?_⟩
          · intro ev he
            rcases List.mem_cons.mp he with h | h
            · subst h; rfl
            · cases h
          · intro newId _ _ hen'
            injection hen' with hen'
            cases hen'
        | some newId0 =>
          have hensr : ensureWebhookForDriveId r st wh.connectorId wh.driveId
              GOOGLE_DRIVE_WEBHOOK_RENEW_MARGIN_MS now =
              ({ st with webhooks := st.webhooks ++
                  [newWebhookRow st wh.connectorId wh.driveId newId0
                    GOOGLE_DRIVE_WEBHOOK_RENEW_MARGIN_MS now] },
               .ok (some newId0)) := by
            simp only [ensureWebhookForDriveId, hen]
          have heq : renewOneWebhook r now st wh =
              ({ st with webhooks := ((st.webhooks ++
                  [newWebhookRow st wh.connectorId wh.driveId newId0
                    GOOGLE_DRIVE_WEBHOOK_RENEW_MARGIN_MS now]).map (fun w =>
                    if w.id = wh.id then
                      { w with renewedByWebhookId := some newId0 }
                    else w)) },
               [.processed wh.id, .renewed wh.id newId0]) := by
            rw [renewOneWebhook, if_pos hc, hdr]
            simp only [hensr]
          have hfresh : (newWebhookRow st wh.connectorId wh.driveId newId0
              GOOGLE_DRIVE_WEBHOOK_RENEW_MARGIN_MS now).id ≠ wh.id := by

            intro hcon
            apply freshWebhookRowId_not_mem st.webhooks
            have hm : wh.id ∈ st.webhooks.map (fun w => w.id) :=
              List.mem_map_of_mem (fun w => w.id) hwh
            rw [← hcon] at hm
            exact hm
          have hφnew : (fun w => if w.id = wh.id then
              { w with renewedByWebhookId := some newId0 } else w)
              (newWebhookRow st wh.connectorId wh.driveId newId0
                GOOGLE_DRIVE_WEBHOOK_RENEW_MARGIN_MS now) =
              newWebhookRow st wh.connectorId wh.driveId newId0
                GOOGLE_DRIVE_WEBHOOK_RENEW_MARGIN_MS now := by
            exact if_neg hfresh
          rw [heq]
          refine ⟨rfl, ?_, ?_, rfl, ?_, ?_, ?_⟩
          · rw [map_id_of_preserve _ (fun w => by
              by_cases h : w.id = wh.id <;> simp [h])]
            rw [List.map_append]
            apply List.Nodup.append hids (by simp)
            intro a ha hb
            simp only [List.map_cons, List.map_nil, List.mem_cons,
              List.not_mem_nil, or_false] at hb
            rw [newWebhookRow] at hb
            subst hb
            exact freshWebhookRowId_not_mem st.webhooks ha
          · intro d
            rw [nonSupersededFor]
            simp only [List.map_append, List.map_cons, List.map_nil,
              List.filter_append, List.length_append]
            rw [if_neg hfresh]
            set φ : GoogleDriveWebhook → GoogleDriveWebhook := fun w =>
              if w.id = wh.id then
                { w with renewedByWebhookId := some newId0 } else w with hφdef
            set p := fun w : GoogleDriveWebhook =>
              w.driveId == d && w.renewedByWebhookId == none with hpdef
            have hother : ∀ x : GoogleDriveWebhook, x.id ≠ wh.id → φ x = x := by
              intro x hx
              rw [hφdef]
              exact if_neg hx
            have hflip := @filter_length_flip φ p wh.id st.webhooks hother
            have hC2 : (st.webhooks.filter
                (fun x => x.id == wh.id && p (φ x))).length = 0 := by
              apply filter_false_length
              intro x _
              by_cases hx : x.id = wh.id
              · rw [hφdef, hpdef]
                simp [hx]
              · simp [hx]
            by_cases hd : d = wh.driveId
            · subst hd
              have hC1 : 1 ≤ (st.webhooks.filter
                  (fun x => x.id == wh.id && p x)).length := by
                apply filter_pos_length _ _ wh hwh
                rw [hpdef]
                simp [hnone]
              have hB := hinv wh.driveId
              rw [nonSupersededFor] at hB
              rw [← hpdef] at hB
              have hnew : (List.filter p [newWebhookRow st wh.connectorId
                  wh.driveId newId0 GOOGLE_DRIVE_WEBHOOK_RENEW_MARGIN_MS
                  now]).length ≤ 1 := by
                rw [List.filter_cons]
                cases p (newWebhookRow st wh.connectorId wh.driveId newId0
                    GOOGLE_DRIVE_WEBHOOK_RENEW_MARGIN_MS now) <;> simp
              omega
            · have hnew : (List.filter p [newWebhookRow st wh.connectorId
                  wh.driveId newId0 GOOGLE_DRIVE_WEBHOOK_RENEW_MARGIN_MS
                  now]).length = 0 := by
                apply filter_false_length
                intro x hx
                simp only [List.mem_singleton] at hx
                subst hx
                rw [hpdef, newWebhookRow]
                have hd' : wh.driveId ≠ d := fun h => hd h.symm
                simp [hd']
              have hB := hinv d
              rw [nonSupersededFor] at hB
              rw [← hpdef] at hB
              omega
          · intro ev he
            rcases List.mem_cons.mp he with h | h
            · subst h; rfl
            · rcases List.mem_cons.mp h with h | h
              · subst h; rfl
              · cases h
          · intro w0 hw0 hid
            have hmem : w0 ∈ st.webhooks ++
                [newWebhookRow st wh.connectorId wh.driveId newId0
                  GOOGLE_DRIVE_WEBHOOK_RENEW_MARGIN_MS now] :=
              List.mem_append_left _ hw0
            exact List.mem_map.mpr ⟨w0, hmem, by simp [hid]⟩
          · intro newId hc' hiso hen'
            injection hen' with hen'
            injection hen' with hen'
            subst hen'
            refine ⟨rfl, ?_⟩
            have hmem : wh ∈ st.webhooks ++
                [newWebhookRow st wh.connectorId wh.driveId newId0
                  GOOGLE_DRIVE_WEBHOOK_RENEW_MARGIN_MS now] :=
              List.mem_append_left _ hwh
            refine List.mem_map.mpr ⟨wh, hmem, ?_⟩
            simp
  · have heq : renewOneWebhook r now st wh = (st, [.processed wh.id]) := by
      rw [renewOneWebhook, if_neg hc]
    rw [heq]
    refine ⟨rfl, hids, hinv, rfl, ?_, fun w0 hw0 _ => hw0, ?_⟩
    · intro ev he
      rcases List.mem_cons.mp he with h | h
      · subst h; rfl
      · cases h
    · intro newId hc' _ _
      exact absurd hc' hc

/-- The renewal loop over a batch of pairwise-distinct pending rows
preserves the connector table, row-id uniqueness and the
one-non-superseded-subscription-per-drive invariant, emits exactly one
`processed` event per batch member in batch order, leaves every row
outside the batch untouched, and records each successful re-registration
by keeping the old row and linking it to its successor. -/
theorem renewRun_spec (r : Remote) (now : Nat) :
    ∀ (l : List GoogleDriveWebhook) (st : St),
    (∀ wh ∈ l, wh ∈ st.webhooks ∧ wh.renewedByWebhookId = none) →
    ((l.map (fun w => w.id)).Nodup) →
    ((st.webhooks.map (fun w => w.id)).Nodup) →
    (∀ d, (nonSupersededFor st d).length ≤ 1) →
    ((renewRun r now l st).1.connectors = st.connectors) ∧
    (((renewRun r now l st).1.webhooks.map (fun w => w.id)).Nodup) ∧
    (∀ d, (nonSupersededFor (renewRun r now l st).1 d).length ≤ 1) ∧
    ((renewRun r now l st).2.filterMap processedId = l.map (fun w => w.id)) ∧
    (∀ w0 ∈ st.webhooks, w0.id ∉ l.map (fun w => w.id) →
      w0 ∈ (renewRun r now l st).1.webhooks) ∧
    (∀ wh ∈ l, ∀ newId, wh.connectorId ∈ st.connectors →
      (getGoogleDriveObject r wh.driveId).isSome = true →
      lookupEnsure r wh.driveId = .ok (some newId) →
      { wh with renewedByWebhookId := some newId } ∈
        (renewRun r now l st).1.webhooks) := by
  intro l
  induction l with
  | nil =>
    intro st _ _ hids hinv
    exact ⟨rfl, hids, hinv, rfl, fun w0 hw0 _ => hw0,
           fun wh hwh => absurd hwh (List.not_mem_nil wh)⟩
  | cons wh l ih =>
    intro st hsub hldn hids hinv
    have hwhmem := (hsub wh (List.mem_cons_self wh l)).1
    have hwhnone := (hsub wh (List.mem_cons_self wh l)).2
    obtain ⟨hA, hB, hC, hD, hE, hF, hG⟩ :=
      renewOneWebhook_spec r now st wh hwhmem hwhnone hids hinv
    rw [List.map_cons] at hldn
    have hnotin : wh.id ∉ l.map (fun w => w.id) := (List.nodup_cons.mp hldn).1
    have hltail : (l.map (fun w => w.id)).Nodup := (List.nodup_cons.mp hldn).2
    have hsub' : ∀ wh' ∈ l,
        wh' ∈ (renewOneWebhook r now st wh).1.webhooks ∧
          wh'.renewedByWebhookId = none := by
      intro wh' hwh'
      have hne : wh'.id ≠ wh.id := by
        intro he
        exact hnotin (he ▸ List.mem_map_of_mem (fun w => w.id) hwh')
      exact ⟨hF wh' (hsub wh' (List.mem_cons_of_mem wh hwh')).1 hne,
             (hsub wh' (List.mem_cons_of_mem wh hwh')).2⟩
    obtain ⟨iA, iB, iC, iD, iFr, iSucc⟩ :=
      ih ((renewOneWebhook r now st wh).1) hsub' hltail hB hC
    have hr : renewRun r now (wh :: l) st =
        ((renewRun r now l (renewOneWebhook r now st wh).1).1,
         (renewOneWebhook r now st wh).2 ++
           (renewRun r now l (renewOneWebhook r now st wh).1).2) := rfl
    refine ⟨?_, ?_, ?_, ?_, ?_, ?_⟩
    · rw [hr]
      exact iA.trans hA
    · rw [hr]
      exact iB
    · rw [hr]
      exact iC
    · show ((renewOneWebhook r now st wh).2 ++
          (renewRun r now l (renewOneWebhook r now st wh).1).2).filterMap
            processedId = (wh :: l).map (fun w => w.id)
      rw [List.filterMap_append, hD, iD, List.map_cons]
      rfl
    · intro w0 hw0 hnot
      rw [List.map_cons] at hnot
      have hne : w0.id ≠ wh.id := fun he => hnot (List.mem_cons.mpr (Or.inl he))
      have hnl : w0.id ∉ l.map (fun w => w.id) :=
        fun hm => hnot (List.mem_cons.mpr (Or.inr hm))
      exact iFr w0 (hF w0 hw0 hne) hnl
    · intro wh0 hwh0 newId hc0 hiso0 hen0
      rcases List.mem_cons.mp hwh0 with he | ht
      · subst he
        exact iFr { wh0 with renewedByWebhookId := some newId }
          (hG newId hc0 hiso0 hen0).2 hnotin
      · exact iSucc wh0 ht newId (by rw [hA]; exact hc0) hiso0 hen0

/-- C5 (amended): one renewal pass selects, in table order, up to
`pageSize` of the subscriptions whose `renewAt` lies within the
lookahead margin of `now` and whose forward pointer is null, returning
the selected count; each selected subscription is processed exactly once
(the `processed` event ids are exactly the pairwise-distinct batch ids);
when the drive is reachable and the replacement registration succeeds the
old record is retained and linked to its successor through
`renewedByWebhookId` (as long as it is not past the cleanup retention
window of the final sweep) rather than deleted; and after the pass at
most one subscription per drive is non-superseded, hence at most one is
active. -/
theorem renewWebhooks_pass (r : Remote) (now : Nat) (st : St) (pageSize : Nat)
    (hids : (st.webhooks.map (fun w => w.id)).Nodup)
    (hinv : ∀ d, (nonSupersededFor st d).length ≤ 1) :
    ((renewWebhooks r now st pageSize).2.1 =
      (selectedWebhooks st now pageSize).length) ∧
    ((renewWebhooks r now st pageSize).2.2.filterMap processedId =
      (selectedWebhooks st now pageSize).map (fun w => w.id)) ∧
    (((selectedWebhooks st now pageSize).map (fun w => w.id)).Nodup) ∧
    (∀ d, (nonSupersededFor (renewWebhooks r now st pageSize).1 d).length ≤ 1) ∧
    (∀ d, (activeFor now (renewWebhooks r now st pageSize).1 d).length ≤ 1) ∧
    (∀ wh ∈ selectedWebhooks st now pageSize, ∀ newId,
      wh.connectorId ∈ st.connectors →
      (getGoogleDriveObject r wh.driveId).isSome = true →
      lookupEnsure r wh.driveId = .ok (some newId) →
      now ≤ wh.expiresAt + CLEANUP_RETENTION_MS →
      { wh with renewedByWebhookId := some newId } ∈
        (renewWebhooks r now st pageSize).1.webhooks) := by
  have hbsub : List.Sublist (selectedWebhooks st now pageSize) st.webhooks := by
    rw [selectedWebhooks]
    exact List.Sublist.trans (List.take_sublist pageSize _)
      (List.filter_sublist _)
  have hbids : ((selectedWebhooks st now pageSize).map (fun w => w.id)).Nodup :=
    List.Nodup.sublist (hbsub.map (fun w => w.id)) hids
  have hsel : ∀ wh ∈ selectedWebhooks st now pageSize,
      wh ∈ st.webhooks ∧ wh.renewedByWebhookId = none := by
    intro wh hwh
    have hfe : wh ∈ st.webhooks.filter (webhookEligible now) := by
      rw [selectedWebhooks] at hwh
      exact List.take_subset _ _ hwh
    have he := (List.mem_filter.mp hfe).2
    rw [webhookEligible] at he
    have h2 : wh.renewedByWebhookId = none := by
      cases h0 : wh.renewedByWebhookId == none with
      | false => rw [h0, Bool.and_false] at he; cases he
      | true => simpa using h0
    exact ⟨(List.mem_filter.mp hfe).1, h2⟩
  obtain ⟨iA, iB, iC, iD, iFr, iSucc⟩ :=
    renewRun_spec r now (selectedWebhooks st now pageSize) st hsel hbids hids hinv
  have hcount : (renewWebhooks r now st pageSize).2.1 =
      (selectedWebhooks st now pageSize).length := rfl
  have hev : (renewWebhooks r now st pageSize).2.2 =
      (renewRun r now (selectedWebhooks st now pageSize) st).2 := rfl
  have hwebs : (renewWebhooks r now st pageSize).1.webhooks =
      removeLimited (cleanupPred now) pageSize
        (renewRun r now (selectedWebhooks st now pageSize) st).1.webhooks := rfl
  have h4 : ∀ d, (List.filter
      (fun w => w.driveId == d && w.renewedByWebhookId == none)
      ((renewWebhooks r now st pageSize).1.webhooks)).length ≤ 1 := by
    intro d
    rw [hwebs]
    have hsw := removeLimited_sublist (cleanupPred now)
      ((renewRun r now (selectedWebhooks st now pageSize) st).1.webhooks)
      pageSize
    have hle := List.Sublist.length_le
      (hsw.filter (fun w => w.driveId == d && w.renewedByWebhookId == none))
    have hub := iC d
    rw [nonSupersededFor] at hub
    exact le_trans hle hub
  refine ⟨hcount, ?_, hbids, ?_, ?_, ?_⟩
  · rw [hev]
    exact iD
  · intro d
    rw [nonSupersededFor]
    exact h4 d
  · intro d
    rw [activeFor]
    refine le_trans (filter_length_le_of_imp
      (fun w => w.driveId == d && w.renewedByWebhookId == none) _ _ ?_) (h4 d)
    intro x hx
    cases h1 : x.driveId == d with
    | false => simp [h1] at hx
    | true =>
      cases h2 : x.renewedByWebhookId == none with
      | false => simp [h1, h2] at hx
      | true =>
        show (x.driveId == d && x.renewedByWebhookId == none) = true
        rw [h1, h2]
        rfl
  · intro wh hwh newId hc hiso hen hret
    have hlink := iSucc wh hwh newId hc hiso hen
    have hcp : cleanupPred now
        ({ wh with renewedByWebhookId := some newId }) = false := by
      have h1 : ¬ (wh.expiresAt + CLEANUP_RETENTION_MS < now) :=
        Nat.not_lt.mpr hret
      simp [cleanupPred, h1]
    rw [hwebs]
    exact mem_removeLimited_of_not (cleanupPred now) _ hcp _ pageSize hlink

/-! ## C5 — concrete renewal-pass scenarios -/

def whC5a : GoogleDriveWebhook :=
  { id := 1, connectorId := 1, driveId := "d1", webhookId := "W1",
    expiresAt := 200, renewAt := 30, renewedByWebhookId := none }

def whC5b : GoogleDriveWebhook :=
  { id := 2, connectorId := 1, driveId := "d2", webhookId := "W2",
    expiresAt := 200, renewAt := 35, renewedByWebhookId := none }

def stC5x : St :=
  { connectors := [1], failedConnectors := [], pdfEnabled := false,
    files := [], folders := [], syncTokens := [],
    webhooks := [whC5a, whC5b], ds := { docs := [], sheets := [] } }

def objC5a : GoogleDriveObjectType :=
  { id := "d1", name := "D1", mimeType := folderMime, parent := none,
    trashed := false, createdTime := "t" }

def objC5b : GoogleDriveObjectType :=
  { id := "d2", name := "D2", mimeType := folderMime, parent := none,
    trashed := false, createdTime := "t" }

def rC5x : Remote :=
  { objects := [objC5a, objC5b], listPages := [], changePages := [],
    startPageTokens := [],
    ensureResults := [("d1", .ok (some "NEW1")), ("d2", .ok (some "NEW2"))] }

/-- C5 counterexample: with two subscriptions due for renewal but
`pageSize = 1`, the pass handles only the first — the second eligible,
non-superseded subscription is left completely untouched (no `processed`
event carries its id and its row is unchanged), contradicting "exactly
the subscriptions with `renewAt` within the margin and null forward
pointer are selected; each such subscription is renewed exactly once" in
that very pass. -/
theorem renewWebhooks_pageSize_counterexample :
    (stC5x.webhooks.filter (webhookEligible 40)).length = 2 ∧
    webhookEligible 40 whC5b = true ∧
    (renewWebhooks rC5x 40 stC5x 1).2.1 = 1 ∧
    (renewWebhooks rC5x 40 stC5x 1).2.2 =
      [.processed 1, .renewed 1 "NEW1"] ∧
    whC5b ∈ (renewWebhooks rC5x 40 stC5x 1).1.webhooks ∧
    whC5b.renewedByWebhookId = none := by
  decide

def whC5w : GoogleDriveWebhook :=
  { id := 7, connectorId := 1, driveId := "d1", webhookId := "W7",
    expiresAt := 200, renewAt := 30, renewedByWebhookId := none }

def stC5w : St :=
  { connectors := [1], failedConnectors := [], pdfEnabled := false,
    files := [], folders := [], syncTokens := [],
    webhooks := [whC5w], ds := { docs := [], sheets := [] } }

def rC5w : Remote :=
  { objects := [objC5a], listPages := [], changePages := [],
    startPageTokens := [],
    ensureResults := [("d1", .ok (some "NEW1"))] }

theorem renewWebhooks_pass_witness :
    (renewWebhooks rC5w 40 stC5w 5).2.1 = 1 ∧
    (renewWebhooks rC5w 40 stC5w 5).2.2.filterMap processedId = [7] ∧
    { whC5w with renewedByWebhookId := some "NEW1" } ∈
      (renewWebhooks rC5w 40 stC5w 5).1.webhooks := by
  have hinvw : ∀ d, (nonSupersededFor stC5w d).length ≤ 1 := by
    intro d
    have hfw : nonSupersededFor stC5w d = List.filter
        (fun w => w.driveId == d && w.renewedByWebhookId == none)
        [whC5w] := rfl
    rw [hfw, List.filter_cons]
    split
    · simp
    · simp
  have h := renewWebhooks_pass rC5w 40 stC5w 5 (by decide) hinvw
  obtain ⟨h1, h2, _, _, _, h6⟩ := h
  refine ⟨?_, ?_, ?_⟩
  · rw [h1]
    decide
  · rw [h2]
    decide
  · exact h6 whC5w (by decide) "NEW1" (by decide) (by decide) (by rfl)
      (by decide)

end GDrive
